import Mathlib

set_option linter.unusedVariables false

/-!
Shallow embedding of orbital's compositor core (`src/scheme.rs`) and proofs of
the specification's testable properties about it.

The embedding follows `src/scheme.rs` line by line.  Types that `scheme.rs`
imports from sibling modules that are not part of the verified source
(`rect.rs`, `window.rs`, the image buffer) are modelled from the spec, as
marked on their doc comments.  Pixel contents of the framebuffer are not part
of the model; every state component that the claims mention (`windows`,
`order`, `redraws`, `dragging`, `next_id`, `next_x`, `next_y`, cursor state,
`win_key`, `win_tabbing`, `background_i`) is modelled exactly.
-/

/-- Modelled from the spec: the axis-aligned rectangle primitive of `rect.rs`
(not under `src/`): `x, y` top-left corner, `w, h` extent; `container` is the
bounding union and `area` the product of the extents (§2 item 1, §4.1). -/
structure Rect where
  x : Int
  y : Int
  w : Int
  h : Int
deriving DecidableEq

/-- Modelled from the spec: `area` of a rectangle (`rect.rs` is not under `src/`). -/
def Rect.area (r : Rect) : Int := r.w * r.h

/-- Modelled from the spec: `container` = smallest rectangle containing both
(`rect.rs` is not under `src/`). -/
def Rect.container (r s : Rect) : Rect :=
  let left := min r.x s.x
  let top := min r.y s.y
  let right := max (r.x + r.w) (s.x + s.w)
  let bottom := max (r.y + r.h) (s.y + s.h)
  ⟨left, top, right - left, bottom - top⟩

/-- Modelled from the spec: point containment test of `rect.rs`
(not under `src/`); a rectangle covers the half-open integer box
`[x, x+w) × [y, y+h)`. -/
def Rect.containsPt (r : Rect) (px py : Int) : Bool :=
  r.x ≤ px && px < r.x + r.w && r.y ≤ py && py < r.y + r.h

/-- `schedule` from `src/scheme.rs` lines 19–34: one-pass damage coalescing.
The first existing rectangle whose bounding union with the request costs no
more area than the two separately absorbs the request; otherwise the request
is appended. -/
def schedule : List Rect → Rect → List Rect
  | [], request => [request]
  | rect :: rest, request =>
    let container := Rect.container rect request
    if container.area ≤ rect.area + request.area then
      container :: rest
    else
      rect :: schedule rest request

/-- A point is inside the union of a list of rectangles. -/
def inUnion (rs : List Rect) (px py : Int) : Bool :=
  rs.any fun r => r.containsPt px py

/-- Events sitting in a window's queue (the serialized `orbclient` events that
`Window::event` enqueues in `src/scheme.rs`). -/
inductive GEvent where
  | key (scancode : Nat) (pressed : Bool)
  | mouse (x y : Int) (left middle right : Bool)
  | scroll (x y : Int)
  | focus (focused : Bool)
  | quit
  | move (x y : Int)
  | resize (w h : Int)
deriving DecidableEq

/-- `orbclient::KeyEvent` as used by `OrbitalScheme::key_event`. -/
structure KeyEvent where
  scancode : Nat
  pressed : Bool
deriving DecidableEq

/-- `orbclient::MouseEvent` as used by `OrbitalScheme::mouse_event`. -/
structure MouseEvent where
  x : Int
  y : Int
  left : Bool
  middle : Bool
  right : Bool
deriving DecidableEq

/-- Modelled from the spec: per-client window state of `window.rs` (not under
`src/`) — position, size, title, async/resizable flags and the FIFO event
queue (§3 Data model, "Window").  The pixel buffer and rendered title image
are not modelled. -/
structure Window where
  x : Int
  y : Int
  width : Int
  height : Int
  title : List Char
  async : Bool
  resizable : Bool
  events : List GEvent
deriving DecidableEq

/-- Modelled from the spec: `Window::new` (`window.rs` is not under `src/`)
creates a window with the given geometry, title and flags and an empty event
queue. -/
def Window.new (x y width height : Int) (title : List Char) (asy rsz : Bool) : Window :=
  { x := x, y := y, width := width, height := height, title := title,
    async := asy, resizable := rsz, events := [] }

/-- Modelled from the spec: height of the title bar sitting immediately above
the client area (`window.rs` is not under `src/`; the exact pixel layout is
implementation-fixed, §3). -/
def barHeight : Int := 28

/-- Modelled from the spec: width of the border strips adjacent to the client
area (`window.rs` is not under `src/`). -/
def borderWidth : Int := 4

/-- Modelled from the spec: the client rectangle, a deterministic function of
`(x, y, width, height)` (`window.rs` is not under `src/`). -/
def Window.rect (w : Window) : Rect := ⟨w.x, w.y, w.width, w.height⟩

/-- Modelled from the spec: the title-bar rectangle immediately above the
client area (`window.rs` is not under `src/`). -/
def Window.titleRect (w : Window) : Rect := ⟨w.x, w.y - barHeight, w.width, barHeight⟩

/-- Modelled from the spec: right border strip (`window.rs` is not under `src/`). -/
def Window.rightBorderRect (w : Window) : Rect := ⟨w.x + w.width, w.y, borderWidth, w.height⟩

/-- Modelled from the spec: bottom border strip (`window.rs` is not under `src/`). -/
def Window.bottomBorderRect (w : Window) : Rect := ⟨w.x, w.y + w.height, w.width, borderWidth⟩

/-- Modelled from the spec: bottom-right corner strip (`window.rs` is not under `src/`). -/
def Window.bottomRightBorderRect (w : Window) : Rect :=
  ⟨w.x + w.width, w.y + w.height, borderWidth, borderWidth⟩

/-- Modelled from the spec: the close "X" hotspot, a deterministic region of
the current title bar (`window.rs` is not under `src/`, §9 "Close X hotspot"). -/
def Window.exitContains (w : Window) (px py : Int) : Bool :=
  w.titleRect.containsPt px py && w.x + w.width - barHeight ≤ px

/-- Modelled from the spec: `Window::event` appends to the window's FIFO event
queue (`window.rs` is not under `src/`; the source does not bound the queue, §9). -/
def Window.pushEvent (w : Window) (e : GEvent) : Window :=
  {w with events := w.events ++ [e]}

/-- The protocol error taxonomy (§7): `EINVAL`, `EBADF`, would-block. -/
inductive Err where
  | InvalidArgument
  | BadHandle
  | WouldBlock
deriving DecidableEq

/-- Result of a scheme operation: error or a `usize` value. -/
abbrev Res := Except Err Nat

instance {ε α : Type} [DecidableEq ε] [DecidableEq α] : DecidableEq (Except ε α)
  | .ok a, .ok b =>
    if h : a = b then .isTrue (by rw [h]) else .isFalse (by intro c; cases c; exact h rfl)
  | .ok _, .error _ => .isFalse (by intro c; cases c)
  | .error _, .ok _ => .isFalse (by intro c; cases c)
  | .error e, .error f =>
    if h : e = f then .isTrue (by rw [h]) else .isFalse (by intro c; cases c; exact h rfl)

/-- `true` iff the result is an error. -/
def isErr : Res → Bool
  | .error _ => true
  | .ok _ => false

/-- Modelled from the spec: `Window::read` (`window.rs` is not under `src/`)
drains queued events into the caller's buffer (`cap` = how many events fit);
with an empty queue the read would block and mutates nothing (§4.6, §7). -/
def Window.readEvents (w : Window) (cap : Nat) : Except Err (Nat × Window) :=
  if w.events.isEmpty then .error .WouldBlock
  else .ok (min cap w.events.length, {w with events := w.events.drop cap})

/-- Modelled from the spec: `Window::map` (`window.rs` is not under `src/`)
returns an address mapping of the client pixel buffer when the requested range
fits, without mutating the window (§4.6). -/
def Window.mapBuf (w : Window) (offset size : Nat) : Except Err Nat :=
  if offset + size ≤ w.width.toNat * w.height.toNat * 4 then .ok offset
  else .error .InvalidArgument

/-- Association-list model of `BTreeMap<usize, Window>`: first binding wins. -/
def mapGet : List (Nat × Window) → Nat → Option Window
  | [], _ => none
  | (k, v) :: rest, j => if k = j then some v else mapGet rest j

/-- `BTreeMap::insert`: the new binding shadows any old one. -/
def mapInsert (m : List (Nat × Window)) (k : Nat) (v : Window) : List (Nat × Window) :=
  (k, v) :: m

/-- `BTreeMap::remove`: drop every binding of the key. -/
def mapRemove (m : List (Nat × Window)) (k : Nat) : List (Nat × Window) :=
  m.filter fun p => p.1 != k

/-- In-place mutation through `get_mut`: rewrite the value at the key (no-op
when the key is absent). -/
def mapSet (m : List (Nat × Window)) (k : Nat) (f : Window → Window) : List (Nat × Window) :=
  m.map fun p => if p.1 = k then (p.1, f p.2) else p

/-- `DragMode` from `src/scheme.rs` lines 151–157. -/
inductive DragMode where
  | None
  | Title (id : Nat) (x y : Int)
  | RightBorder (id : Nat) (offx : Int)
  | BottomBorder (id : Nat) (offy : Int)
  | BottomRightBorder (id : Nat) (offx offy : Int)
deriving DecidableEq

/-- The compositor state of `struct OrbitalScheme` (`src/scheme.rs` lines
159–183).  Images are represented by their dimensions only (`screenW/H` for
`image`, `(w, h)` pairs for `backgrounds`, `cursorW/H` for the cursor);
pixel data, decoration images, the font and the `todo` queue play no part in
any claim. -/
structure OrbitalScheme where
  screenW : Int
  screenH : Int
  backgrounds : List (Int × Int)
  background_i : Nat
  cursorW : Int
  cursorH : Int
  cursor_x : Int
  cursor_y : Int
  cursor_left : Bool
  cursor_middle : Bool
  cursor_right : Bool
  dragging : DragMode
  win_key : Bool
  win_tabbing : Bool
  next_id : Int
  next_x : Int
  next_y : Int
  order : List Nat
  windows : List (Nat × Window)
  redraws : List Rect
deriving DecidableEq

/-- `OrbitalScheme::new` (`src/scheme.rs` lines 186–217), parameterized by the
display size, the background image sizes and the cursor image size. -/
def newScheme (w h : Int) (bgs : List (Int × Int)) (cw ch : Int) : OrbitalScheme :=
  { screenW := w, screenH := h, backgrounds := bgs, background_i := 0,
    cursorW := cw, cursorH := ch,
    cursor_x := 0, cursor_y := 0,
    cursor_left := false, cursor_middle := false, cursor_right := false,
    dragging := .None, win_key := false, win_tabbing := false,
    next_id := 1, next_x := 4, next_y := 32,
    order := [], windows := [], redraws := [⟨0, 0, w, h⟩] }

/-- `OrbitalScheme::background_rect` (`src/scheme.rs` lines 219–229). -/
def backgroundRect (s : OrbitalScheme) : Rect :=
  match s.backgrounds[s.background_i]? with
  | some bg =>
    ⟨Int.tdiv s.screenW 2 - Int.tdiv bg.1 2, Int.tdiv s.screenH 2 - Int.tdiv bg.2 2,
      bg.1, bg.2⟩
  | none => ⟨-1, -1, 0, 0⟩

/-- `OrbitalScheme::cursor_rect` (`src/scheme.rs` lines 231–233). -/
def cursorRect (s : OrbitalScheme) : Rect :=
  ⟨s.cursor_x, s.cursor_y, s.cursorW, s.cursorH⟩

/-- `schedule(&mut self.redraws, r)` as a state transformer. -/
def schedRect (s : OrbitalScheme) (r : Rect) : OrbitalScheme :=
  {s with redraws := schedule s.redraws r}

/-- `if let Some(mut window) = self.windows.get_mut(&id) { window.event(e) }`. -/
def winEvent (s : OrbitalScheme) (id : Nat) (e : GEvent) : OrbitalScheme :=
  {s with windows := mapSet s.windows id fun w => w.pushEvent e}

/-- The shared "schedule damage for the current front window" block
(`src/scheme.rs` lines 636–641 and 748–753). -/
def schedFront (s : OrbitalScheme) : OrbitalScheme :=
  match s.order.head? with
  | some fid =>
    match mapGet s.windows fid with
    | some fw => schedRect (schedRect s fw.titleRect) fw.rect
    | none => s
  | none => s

/-- The "redraw old focused window" block: schedule the window's title and
client rects and deliver `Focus(false)` when it exists (`src/scheme.rs`
lines 292–298 and 449–455). -/
def winFocusFalse (s : OrbitalScheme) (id : Nat) : OrbitalScheme :=
  match mapGet s.windows id with
  | some w => winEvent (schedRect (schedRect s w.titleRect) w.rect) id (.focus false)
  | none => s

/-- The "redraw new focused window" block: schedule the window's title and
client rects and deliver `Focus(true)` when it exists (`src/scheme.rs`
lines 303–309 and 459–464). -/
def winFocusTrue (s : OrbitalScheme) (id : Nat) : OrbitalScheme :=
  match mapGet s.windows id with
  | some w => winEvent (schedRect (schedRect s w.titleRect) w.rect) id (.focus true)
  | none => s

/-- `pop_front`, focus-out on the popped id, `push_back`
(`src/scheme.rs` lines 291–300). -/
def winTabFocusOut (s0 : OrbitalScheme) : OrbitalScheme :=
  match s0.order with
  | [] => s0
  | id :: rest => {winFocusFalse s0 id with order := rest ++ [id]}

/-- Focus-in on the new front (`src/scheme.rs` lines 302–310). -/
def winTabFocusIn (s1 : OrbitalScheme) : OrbitalScheme :=
  match s1.order.head? with
  | some id2 => winFocusTrue s1 id2
  | none => s1

/-- `OrbitalScheme::win_tab` (`src/scheme.rs` lines 285–312). -/
def winTab (s : OrbitalScheme) : OrbitalScheme :=
  if s.order.length > 1 then
    winTabFocusIn (winTabFocusOut {s with dragging := .None})
  else s

/-- The overlay rectangle computed by `OrbitalScheme::draw_window_list`
(`src/scheme.rs` lines 315–345): 400 wide, 20 per listed window plus 4,
centered on the screen. -/
def windowListRect (s : OrbitalScheme) : Rect :=
  let n : Int := (s.order.filter fun id => (mapGet s.windows id).isSome).length
  let listH := n * 20 + 4
  let listW : Int := 400
  ⟨Int.tdiv s.screenW 2 - Int.tdiv listW 2, Int.tdiv s.screenH 2 - Int.tdiv listH 2,
    listW, listH⟩

/-- `OrbitalScheme::draw_window_list` (`src/scheme.rs` lines 315–345): blits
the overlay (pixels not modelled) and schedules its rectangle. -/
def drawWindowList (s : OrbitalScheme) : OrbitalScheme :=
  schedRect s (windowListRect s)

/-- `OrbitalScheme::redraw` (`src/scheme.rs` lines 239–283) restricted to the
state components of the model: `drain(..)` empties `redraws` (the drawing it
drives only touches the framebuffer, which is not state of the model), then
`draw_window_list` runs iff `win_tabbing`. -/
def redraw (s : OrbitalScheme) : OrbitalScheme :=
  let s1 := {s with redraws := []}
  if s1.win_tabbing then drawWindowList s1 else s1

/-- `OrbitalScheme::key_event`'s background-switch branch (`src/scheme.rs`
lines 368–380). -/
def backgroundSwitch (s : OrbitalScheme) : OrbitalScheme :=
  let s1 := schedRect s (backgroundRect s)
  let i1 := s1.background_i + 1
  let s2 := {s1 with background_i := if i1 ≥ s1.backgrounds.length then 0 else i1}
  schedRect s2 (backgroundRect s2)

/-- `OrbitalScheme::key_event` (`src/scheme.rs` lines 347–390).  Scancodes:
`0x38` = modifier key, `0x01` = `K_ESC`, `0x0F` = `K_TAB`, `0x0E` = `K_BKSP`. -/
def keyEvent (s : OrbitalScheme) (ev : KeyEvent) : OrbitalScheme :=
  if ev.scancode = 0x38 then
    let s1 := {s with win_key := ev.pressed}
    if !ev.pressed then {s1 with win_tabbing := false} else s1
  else if s.win_key then
    if ev.scancode = 0x01 then
      if ev.pressed then
        match s.order.head? with
        | some id => winEvent s id .quit
        | none => s
      else s
    else if ev.scancode = 0x0F then
      if ev.pressed then winTab {s with win_tabbing := true} else s
    else if ev.scancode = 0x0E then
      if ev.pressed then backgroundSwitch s else s
    else s
  else
    match s.order.head? with
    | some id => winEvent s id (.key ev.scancode ev.pressed)
    | none => s

/-- The hit-test loop of `OrbitalScheme::mouse_event` in `DragMode::None`
(`src/scheme.rs` lines 396–445), returning the `focus` index (0 when never
assigned) and the state after the loop. -/
def mouseHit (s : OrbitalScheme) (ev : MouseEvent) : List Nat → Nat → Nat × OrbitalScheme
  | [], _ => (0, s)
  | id :: rest, i =>
    match mapGet s.windows id with
    | none => mouseHit s ev rest (i + 1)
    | some w =>
      if w.rect.containsPt ev.x ev.y then
        let s' := winEvent s id (.mouse (ev.x - w.x) (ev.y - w.y) ev.left ev.middle ev.right)
        ((if (ev.left && !s.cursor_left) || (ev.middle && !s.cursor_middle)
            || (ev.right && !s.cursor_right) then i else 0), s')
      else if w.titleRect.containsPt ev.x ev.y then
        if ev.left && !s.cursor_left then
          if w.exitContains ev.x ev.y then (i, winEvent s id .quit)
          else (i, {s with dragging := .Title id ev.x ev.y})
        else (0, s)
      else if w.rightBorderRect.containsPt ev.x ev.y then
        if ev.left && !s.cursor_left then
          (i, {s with dragging := .RightBorder id (ev.x - (w.x + w.width))})
        else (0, s)
      else if w.bottomBorderRect.containsPt ev.x ev.y then
        if ev.left && !s.cursor_left then
          (i, {s with dragging := .BottomBorder id (ev.y - (w.y + w.height))})
        else (0, s)
      else if w.bottomRightBorderRect.containsPt ev.x ev.y then
        if ev.left && !s.cursor_left then
          let dm := DragMode.BottomRightBorder id (ev.x - (w.x + w.width)) (ev.y - (w.y + w.height))
          (i, {s with dragging := dm})
        else (0, s)
      else mouseHit s ev rest (i + 1)

/-- `order.remove(focus)`, focus-in on the removed id, `push_front`
(`src/scheme.rs` lines 457–467). -/
def refocusGo (s1 : OrbitalScheme) (focus : Nat) : OrbitalScheme :=
  match s1.order[focus]? with
  | some id =>
    let s2 := {s1 with order := s1.order.eraseIdx focus}
    {winFocusTrue s2 id with order := id :: s2.order}
  | none => s1

/-- The focus-change block after the hit-test loop (`src/scheme.rs` lines
446–468): focus-out on the old front, then remove-and-refront the target. -/
def refocus (s : OrbitalScheme) (focus : Nat) : OrbitalScheme :=
  if focus > 0 then
    refocusGo
      (match s.order.head? with
        | some fid => winFocusFalse s fid
        | none => s) focus
  else s

/-- The motion step of drag state `Title` (`src/scheme.rs` lines 472–490),
given the looked-up window: on actual motion, schedule old damage, translate
the window, deliver a move event, update the grab point, schedule new damage. -/
def mouseDragTitleGo (s : OrbitalScheme) (ev : MouseEvent) (wid : Nat) (gx gy : Int)
    (w : Window) : OrbitalScheme :=
  if gx ≠ ev.x ∨ gy ≠ ev.y then
    let s1 := schedRect (schedRect s w.titleRect) w.rect
    let w' := {w with x := w.x + (ev.x - gx), y := w.y + (ev.y - gy)}
    let s2 := {s1 with windows := mapSet s1.windows wid fun _ => w'}
    let s3 := winEvent s2 wid (.move w'.x w'.y)
    let s4 := {s3 with dragging := .Title wid ev.x ev.y}
    schedRect (schedRect s4 w'.titleRect) w'.rect
  else s

/-- Drag state `Title` (`src/scheme.rs` lines 470–497). -/
def mouseDragTitle (s : OrbitalScheme) (ev : MouseEvent) (wid : Nat) (gx gy : Int) :
    OrbitalScheme :=
  if ev.left then
    match mapGet s.windows wid with
    | some w => mouseDragTitleGo s ev wid gx gy w
    | none => {s with dragging := .None}
  else {s with dragging := .None}

/-- The resize step of drag state `RightBorder` (`src/scheme.rs` lines 500–508). -/
def mouseDragRightGo (s : OrbitalScheme) (ev : MouseEvent) (wid : Nat) (offx : Int)
    (w : Window) : OrbitalScheme :=
  let nw := ev.x - offx - w.x
  if nw > 0 ∧ nw ≠ w.width then winEvent s wid (.resize nw w.height) else s

/-- Drag state `RightBorder` (`src/scheme.rs` lines 498–515). -/
def mouseDragRight (s : OrbitalScheme) (ev : MouseEvent) (wid : Nat) (offx : Int) :
    OrbitalScheme :=
  if ev.left then
    match mapGet s.windows wid with
    | some w => mouseDragRightGo s ev wid offx w
    | none => {s with dragging := .None}
  else {s with dragging := .None}

/-- The resize step of drag state `BottomBorder` (`src/scheme.rs` lines 518–526). -/
def mouseDragBottomGo (s : OrbitalScheme) (ev : MouseEvent) (wid : Nat) (offy : Int)
    (w : Window) : OrbitalScheme :=
  let nh := ev.y - offy - w.y
  if nh > 0 ∧ nh ≠ w.height then winEvent s wid (.resize w.width nh) else s

/-- Drag state `BottomBorder` (`src/scheme.rs` lines 516–533). -/
def mouseDragBottom (s : OrbitalScheme) (ev : MouseEvent) (wid : Nat) (offy : Int) :
    OrbitalScheme :=
  if ev.left then
    match mapGet s.windows wid with
    | some w => mouseDragBottomGo s ev wid offy w
    | none => {s with dragging := .None}
  else {s with dragging := .None}

/-- The resize step of drag state `BottomRightBorder` (`src/scheme.rs` lines
536–545): note the source only delivers the event when BOTH dimensions
differ from the current size. -/
def mouseDragBottomRightGo (s : OrbitalScheme) (ev : MouseEvent) (wid : Nat)
    (offx offy : Int) (w : Window) : OrbitalScheme :=
  let nw := ev.x - offx - w.x
  let nh := ev.y - offy - w.y
  if nw > 0 ∧ nh > 0 ∧ nw ≠ w.width ∧ nh ≠ w.height then
    winEvent s wid (.resize nw nh)
  else s

/-- Drag state `BottomRightBorder` (`src/scheme.rs` lines 534–552). -/
def mouseDragBottomRight (s : OrbitalScheme) (ev : MouseEvent) (wid : Nat)
    (offx offy : Int) : OrbitalScheme :=
  if ev.left then
    match mapGet s.windows wid with
    | some w => mouseDragBottomRightGo s ev wid offx offy w
    | none => {s with dragging := .None}
  else {s with dragging := .None}

/-- The `match self.dragging` body of `OrbitalScheme::mouse_event`
(`src/scheme.rs` lines 394–553). -/
def mouseDrag (s : OrbitalScheme) (ev : MouseEvent) : OrbitalScheme :=
  match s.dragging with
  | .None => refocus (mouseHit s ev s.order 0).2 (mouseHit s ev s.order 0).1
  | .Title wid gx gy => mouseDragTitle s ev wid gx gy
  | .RightBorder wid offx => mouseDragRight s ev wid offx
  | .BottomBorder wid offy => mouseDragBottom s ev wid offy
  | .BottomRightBorder wid offx offy => mouseDragBottomRight s ev wid offx offy

/-- `OrbitalScheme::mouse_event` (`src/scheme.rs` lines 392–570): drag-state
dispatch, then cursor bookkeeping and button latches. -/
def mouseEvent (s : OrbitalScheme) (ev : MouseEvent) : OrbitalScheme :=
  let s1 := mouseDrag s ev
  let s2 :=
    if ev.x ≠ s1.cursor_x ∨ ev.y ≠ s1.cursor_y then
      let sA := schedRect s1 (cursorRect s1)
      let sB := {sA with cursor_x := ev.x, cursor_y := ev.y}
      schedRect sB (cursorRect sB)
    else s1
  {s2 with cursor_left := ev.left, cursor_middle := ev.middle, cursor_right := ev.right}

/-- The scroll arm of `OrbitalScheme::event` (`src/scheme.rs` lines 576–582). -/
def scrollEvent (s : OrbitalScheme) (sx sy : Int) : OrbitalScheme :=
  match s.order.head? with
  | some id => winEvent s id (.scroll sx sy)
  | none => s

/-- Value of a decimal digit character. -/
def digitVal (c : Char) : Nat := c.toNat - '0'.toNat

/-- All characters are decimal digits. -/
def allDigits (l : List Char) : Bool := l.all fun c => '0' ≤ c && c ≤ '9'

/-- Value of a digit string. -/
def digitsToNat (l : List Char) : Nat := l.foldl (fun a c => a * 10 + digitVal c) 0

/-- Digits-and-range part of Rust `i32::from_str`: at least one character,
all digits, value within `i32` (overflow is a parse error). -/
def parseI32Core (l : List Char) (neg : Bool) : Option Int :=
  if l.isEmpty || !allDigits l then none
  else
    let n : Int := digitsToNat l
    let v : Int := if neg then -n else n
    if -2 ^ 31 ≤ v ∧ v ≤ 2 ^ 31 - 1 then some v else none

/-- Rust `str::parse::<i32>()`: optional sign, then digits, range-checked. -/
def parseI32 (l : List Char) : Option Int :=
  match l with
  | '+' :: rest => parseI32Core rest false
  | '-' :: rest => parseI32Core rest true
  | _ => parseI32Core l false

/-- Rust `str::split(sep)`: `n` separators yield `n + 1` (possibly empty)
parts. -/
def splitOnChar (sep : Char) : List Char → List (List Char)
  | [] => [[]]
  | c :: rest =>
    if c = sep then [] :: splitOnChar sep rest
    else
      match splitOnChar sep rest with
      | [] => [[c]]
      | p :: ps => (c :: p) :: ps

/-- The title-rebuilding loop of `open` (`src/scheme.rs` lines 610–614): the
sixth and later parts joined back with `/`. -/
def joinSlash : List (List Char) → List Char
  | [] => []
  | p :: rest => rest.foldl (fun acc q => acc ++ '/' :: q) p

/-- `next_id` wrap-around: `self.next_id += 1` on `isize` (release-mode
two's-complement wrap), then reset to 1 when negative
(`src/scheme.rs` lines 617–620). -/
def wrap64 (z : Int) : Int := (z + 2 ^ 63) % 2 ^ 64 - 2 ^ 63

/-- `self.next_id as usize`: two's-complement cast to 64-bit unsigned. -/
def asUsize (z : Int) : Nat := (z % 2 ^ 64).toNat

/-- `SchemeMut::open` for `OrbitalScheme` (`src/scheme.rs` lines 589–650).
`url = none` stands for a byte string that is not valid UTF-8. -/
def schemeOpen (s : OrbitalScheme) (url : Option (List Char)) : Res × OrbitalScheme :=
  match url with
  | none => (.error .InvalidArgument, s)
  | some path =>
    let parts := splitOnChar '/' path
    let flags := parts.headD []
    let asy := flags.contains 'a'
    let rsz := flags.contains 'r'
    let x0 := (parseI32 (parts.getD 1 [])).getD 0
    let y0 := (parseI32 (parts.getD 2 [])).getD 0
    let width := (parseI32 (parts.getD 3 [])).getD 0
    let height := (parseI32 (parts.getD 4 [])).getD 0
    let title := joinSlash (parts.drop 5)
    let id := asUsize s.next_id
    let nid0 := wrap64 (s.next_id + 1)
    let nid := if nid0 < 0 then 1 else nid0
    let pos :=
      if x0 < 0 ∧ y0 < 0 then
        let nx0 := s.next_x + 20
        let nx := if nx0 + 20 ≥ s.screenW then 20 else nx0
        let ny0 := s.next_y + 20
        let ny := if ny0 + 20 ≥ s.screenH then 20 else ny0
        (s.next_x, s.next_y, nx, ny)
      else (x0, y0, s.next_x, s.next_y)
    let s1 := {s with next_id := nid, next_x := pos.2.2.1, next_y := pos.2.2.2}
    let s2 := schedFront s1
    let w := Window.new pos.1 pos.2.1 width height title asy rsz
    let s3 := schedRect (schedRect s2 w.titleRect) w.rect
    (.ok id, {s3 with order := id :: s3.order, windows := mapInsert s3.windows id w})

/-- The drain-or-would-block step of `read`, given the looked-up window
(`src/scheme.rs` line 654; the drain itself is the spec-modelled
`Window.readEvents`). -/
def schemeReadGo (s : OrbitalScheme) (id cap : Nat) (w : Window) : Res × OrbitalScheme :=
  match w.readEvents cap with
  | .ok nw => (.ok nw.1, {s with windows := mapSet s.windows id fun _ => nw.2})
  | .error e => (.error e, s)

/-- `SchemeMut::read` (`src/scheme.rs` lines 652–658). -/
def schemeRead (s : OrbitalScheme) (id cap : Nat) : Res × OrbitalScheme :=
  match mapGet s.windows id with
  | some w => schemeReadGo s id cap w
  | none => (.error .BadHandle, s)

/-- `SchemeMut::write` (`src/scheme.rs` lines 660–710): dispatch on the first
comma-separated token; `buf = none` stands for invalid UTF-8. -/
def schemeWrite (s : OrbitalScheme) (id : Nat) (buf : Option (List Char)) :
    Res × OrbitalScheme :=
  match mapGet s.windows id with
  | none => (.error .BadHandle, s)
  | some w =>
    match buf with
    | none => (.error .InvalidArgument, s)
    | some msg =>
      let parts := splitOnChar ',' msg
      if parts.headD [] = ['P'] then
        let s1 := schedRect (schedRect s w.titleRect) w.rect
        let x := (parseI32 (parts.getD 1 [])).getD w.x
        let y := (parseI32 (parts.getD 2 [])).getD w.y
        let w' := {w with x := x, y := y}
        let s2 := {s1 with windows := mapSet s1.windows id fun _ => w'}
        (.ok msg.length, schedRect (schedRect s2 w'.titleRect) w'.rect)
      else if parts.headD [] = ['S'] then
        let s1 := schedRect (schedRect s w.titleRect) w.rect
        let ww := (parseI32 (parts.getD 1 [])).getD w.width
        let hh := (parseI32 (parts.getD 2 [])).getD w.height
        let w' := {w with width := ww, height := hh}
        let s2 := {s1 with windows := mapSet s1.windows id fun _ => w'}
        (.ok msg.length, schedRect (schedRect s2 w'.titleRect) w'.rect)
      else if parts.headD [] = ['T'] then
        let w' := {w with title := parts.getD 1 []}
        let s1 := {s with windows := mapSet s.windows id fun _ => w'}
        (.ok msg.length, schedRect s1 w'.titleRect)
      else (.error .InvalidArgument, s)

/-- `SchemeMut::fevent` (`src/scheme.rs` lines 712–718). -/
def schemeFevent (s : OrbitalScheme) (id : Nat) : Res × OrbitalScheme :=
  if (mapGet s.windows id).isSome then (.ok id, s) else (.error .BadHandle, s)

/-- The mapping step of `fmap`, given the looked-up window
(`src/scheme.rs` line 722; the mapping itself is the spec-modelled
`Window.mapBuf`). -/
def schemeFmapGo (s : OrbitalScheme) (w : Window) (offset size : Nat) : Res × OrbitalScheme :=
  match w.mapBuf offset size with
  | .ok a => (.ok a, s)
  | .error e => (.error e, s)

/-- `SchemeMut::fmap` (`src/scheme.rs` lines 720–726). -/
def schemeFmap (s : OrbitalScheme) (id offset size : Nat) : Res × OrbitalScheme :=
  match mapGet s.windows id with
  | some w => schemeFmapGo s w offset size
  | none => (.error .BadHandle, s)

/-- `SchemeMut::fpath` (`src/scheme.rs` lines 728–734): writes a textual
description of the window (the text is not modelled; `fpath` mutates nothing
and only errors on a bad handle). -/
def schemeFpath (s : OrbitalScheme) (id : Nat) : Res × OrbitalScheme :=
  match mapGet s.windows id with
  | some w => (.ok 0, s)
  | none => (.error .BadHandle, s)

/-- `SchemeMut::fsync` (`src/scheme.rs` lines 736–743). -/
def schemeFsync (s : OrbitalScheme) (id : Nat) : Res × OrbitalScheme :=
  match mapGet s.windows id with
  | some w => (.ok 0, schedRect s w.rect)
  | none => (.error .BadHandle, s)

/-- `SchemeMut::close` (`src/scheme.rs` lines 745–762): retain, schedule the
(new) front's damage, then remove — note the front-damage scheduling happens
before the handle is validated. -/
def schemeClose (s : OrbitalScheme) (id : Nat) : Res × OrbitalScheme :=
  let s1 := {s with order := s.order.filter fun e => e != id}
  let s2 := schedFront s1
  match mapGet s2.windows id with
  | some w =>
    let s3 := {s2 with windows := mapRemove s2.windows id}
    (.ok 0, schedRect (schedRect s3 w.titleRect) w.rect)
  | none => (.error .BadHandle, s2)

/-- A protocol operation of the `SchemeMut` surface. -/
inductive POp where
  | opOpen (url : Option (List Char))
  | opRead (id cap : Nat)
  | opWrite (id : Nat) (buf : Option (List Char))
  | opFevent (id : Nat)
  | opFmap (id offset size : Nat)
  | opFpath (id : Nat)
  | opFsync (id : Nat)
  | opClose (id : Nat)
deriving DecidableEq

/-- One protocol call: result plus next state. -/
def protoStep (s : OrbitalScheme) (op : POp) : Res × OrbitalScheme :=
  match op with
  | .opOpen url => schemeOpen s url
  | .opRead id cap => schemeRead s id cap
  | .opWrite id buf => schemeWrite s id buf
  | .opFevent id => schemeFevent s id
  | .opFmap id offset size => schemeFmap s id offset size
  | .opFpath id => schemeFpath s id
  | .opFsync id => schemeFsync s id
  | .opClose id => schemeClose s id

/-- Anything the outer loop can hand to the compositor: a protocol packet or
an input event (`OrbitalScheme::event`). -/
inductive Op where
  | proto (p : POp)
  | key (ev : KeyEvent)
  | mouse (ev : MouseEvent)
  | scroll (sx sy : Int)
deriving DecidableEq

/-- One step of the compositor (result of protocol calls discarded). -/
def step (s : OrbitalScheme) (op : Op) : OrbitalScheme :=
  match op with
  | .proto p => (protoStep s p).2
  | .key ev => keyEvent s ev
  | .mouse ev => mouseEvent s ev
  | .scroll sx sy => scrollEvent s sx sy

/-- Run a sequence of operations from the initial state. -/
def run (w h : Int) (bgs : List (Int × Int)) (cw ch : Int) (ops : List Op) : OrbitalScheme :=
  ops.foldl step (newScheme w h bgs cw ch)

/-- The id-set invariant: an id is in `order` iff it is a key of `windows`. -/
def SchemeInv (s : OrbitalScheme) : Prop :=
  ∀ i : Nat, i ∈ s.order ↔ (mapGet s.windows i).isSome

/-- Per-event deltas of a mouse-event sequence, measured from the grab point:
each event's position minus the previous one's (the grab point for the first). -/
def deltaSum : Int × Int → List MouseEvent → Int × Int
  | _, [] => (0, 0)
  | g, e :: rest =>
    let d := deltaSum (e.x, e.y) rest
    (e.x - g.1 + d.1, e.y - g.2 + d.2)


/-! ### Association-list map lemmas -/

theorem mapGet_cons (a : Nat) (b : Window) (m : List (Nat × Window)) (j : Nat) :
    mapGet ((a, b) :: m) j = if a = j then some b else mapGet m j := rfl

theorem mapSet_cons (a : Nat) (b : Window) (m : List (Nat × Window)) (k : Nat)
    (f : Window → Window) :
    mapSet ((a, b) :: m) k f = (if a = k then (a, f b) else (a, b)) :: mapSet m k f := rfl

theorem mapGet_mapSet_isSome (m : List (Nat × Window)) (k : Nat) (f : Window → Window)
    (j : Nat) : (mapGet (mapSet m k f) j).isSome = (mapGet m j).isSome := by
  induction m with
  | nil => rfl
  | cons p rest ih =>
    obtain ⟨a, b⟩ := p
    rw [mapSet_cons]
    by_cases h : a = k
    · rw [if_pos h, mapGet_cons, mapGet_cons]
      by_cases h2 : a = j
      · rw [if_pos h2, if_pos h2]
        rfl
      · rw [if_neg h2, if_neg h2]
        exact ih
    · rw [if_neg h, mapGet_cons, mapGet_cons]
      by_cases h2 : a = j
      · rw [if_pos h2, if_pos h2]
      · rw [if_neg h2, if_neg h2]
        exact ih

theorem mapGet_mapSet_self (m : List (Nat × Window)) (k : Nat) (f : Window → Window)
    (w : Window) (h : mapGet m k = some w) :
    mapGet (mapSet m k f) k = some (f w) := by
  induction m with
  | nil => cases h
  | cons p rest ih =>
    obtain ⟨a, b⟩ := p
    rw [mapSet_cons]
    by_cases h2 : a = k
    · rw [mapGet_cons, if_pos h2] at h
      cases h
      simp [if_pos h2, mapGet_cons]
    · rw [mapGet_cons, if_neg h2] at h
      rw [if_neg h2, mapGet_cons, if_neg h2]
      exact ih h

theorem mapGet_mapSet_ne (m : List (Nat × Window)) (k : Nat) (f : Window → Window)
    (j : Nat) (h : j ≠ k) : mapGet (mapSet m k f) j = mapGet m j := by
  induction m with
  | nil => rfl
  | cons p rest ih =>
    obtain ⟨a, b⟩ := p
    rw [mapSet_cons, mapGet_cons]
    by_cases h2 : a = k
    · rw [if_pos h2, mapGet_cons]
      have h3 : ¬ a = j := fun c => h (c ▸ h2)
      rw [if_neg h3, if_neg h3]
      exact ih
    · rw [if_neg h2, mapGet_cons]
      by_cases h3 : a = j
      · rw [if_pos h3, if_pos h3]
      · rw [if_neg h3, if_neg h3]
        exact ih

theorem mapGet_mapInsert (m : List (Nat × Window)) (k : Nat) (v : Window) (j : Nat) :
    mapGet (mapInsert m k v) j = if k = j then some v else mapGet m j := rfl

theorem mapGet_mapRemove (m : List (Nat × Window)) (k j : Nat) :
    mapGet (mapRemove m k) j = if j = k then none else mapGet m j := by
  induction m with
  | nil => simp [mapRemove, mapGet]
  | cons p rest ih =>
    obtain ⟨a, b⟩ := p
    by_cases h : a = k
    · have h1 : mapRemove ((a, b) :: rest) k = mapRemove rest k := by
        simp [mapRemove, h]
      rw [h1, ih, mapGet_cons]
      by_cases h2 : j = k
      · rw [if_pos h2, if_pos h2]
      · rw [if_neg h2, if_neg h2, if_neg (fun c : a = j => h2 (c.symm.trans h))]
    · have h1 : mapRemove ((a, b) :: rest) k = (a, b) :: mapRemove rest k := by
        simp [mapRemove, h]
      rw [h1, mapGet_cons, mapGet_cons, ih]
      by_cases h2 : a = j
      · have hjk : ¬ j = k := fun c => h (h2.trans c)
        rw [if_pos h2, if_pos h2, if_neg hjk]
      · rw [if_neg h2, if_neg h2]

/-! ### State-transformer shape lemmas -/

theorem schedRect_eq (s : OrbitalScheme) (r : Rect) :
    schedRect s r = {s with redraws := schedule s.redraws r} := rfl

@[simp] theorem schedRect_order (s : OrbitalScheme) (r : Rect) :
    (schedRect s r).order = s.order := rfl

@[simp] theorem schedRect_windows (s : OrbitalScheme) (r : Rect) :
    (schedRect s r).windows = s.windows := rfl

@[simp] theorem schedRect_dragging (s : OrbitalScheme) (r : Rect) :
    (schedRect s r).dragging = s.dragging := rfl

@[simp] theorem schedRect_win_key (s : OrbitalScheme) (r : Rect) :
    (schedRect s r).win_key = s.win_key := rfl

@[simp] theorem schedRect_win_tabbing (s : OrbitalScheme) (r : Rect) :
    (schedRect s r).win_tabbing = s.win_tabbing := rfl

@[simp] theorem schedRect_next_id (s : OrbitalScheme) (r : Rect) :
    (schedRect s r).next_id = s.next_id := rfl

@[simp] theorem schedRect_next_x (s : OrbitalScheme) (r : Rect) :
    (schedRect s r).next_x = s.next_x := rfl

@[simp] theorem schedRect_next_y (s : OrbitalScheme) (r : Rect) :
    (schedRect s r).next_y = s.next_y := rfl

@[simp] theorem schedRect_cursor_x (s : OrbitalScheme) (r : Rect) :
    (schedRect s r).cursor_x = s.cursor_x := rfl

@[simp] theorem schedRect_cursor_y (s : OrbitalScheme) (r : Rect) :
    (schedRect s r).cursor_y = s.cursor_y := rfl

@[simp] theorem winEvent_order (s : OrbitalScheme) (id : Nat) (e : GEvent) :
    (winEvent s id e).order = s.order := rfl

@[simp] theorem winEvent_dragging (s : OrbitalScheme) (id : Nat) (e : GEvent) :
    (winEvent s id e).dragging = s.dragging := rfl

@[simp] theorem winEvent_win_key (s : OrbitalScheme) (id : Nat) (e : GEvent) :
    (winEvent s id e).win_key = s.win_key := rfl

@[simp] theorem winEvent_win_tabbing (s : OrbitalScheme) (id : Nat) (e : GEvent) :
    (winEvent s id e).win_tabbing = s.win_tabbing := rfl

@[simp] theorem winEvent_next_id (s : OrbitalScheme) (id : Nat) (e : GEvent) :
    (winEvent s id e).next_id = s.next_id := rfl

@[simp] theorem winEvent_next_x (s : OrbitalScheme) (id : Nat) (e : GEvent) :
    (winEvent s id e).next_x = s.next_x := rfl

@[simp] theorem winEvent_next_y (s : OrbitalScheme) (id : Nat) (e : GEvent) :
    (winEvent s id e).next_y = s.next_y := rfl

@[simp] theorem winEvent_redraws (s : OrbitalScheme) (id : Nat) (e : GEvent) :
    (winEvent s id e).redraws = s.redraws := rfl

@[simp] theorem winEvent_cursor_x (s : OrbitalScheme) (id : Nat) (e : GEvent) :
    (winEvent s id e).cursor_x = s.cursor_x := rfl

@[simp] theorem winEvent_cursor_y (s : OrbitalScheme) (id : Nat) (e : GEvent) :
    (winEvent s id e).cursor_y = s.cursor_y := rfl

theorem winEvent_windows (s : OrbitalScheme) (id : Nat) (e : GEvent) :
    (winEvent s id e).windows = mapSet s.windows id (fun w => w.pushEvent e) := rfl

@[simp] theorem winEvent_windows_isSome (s : OrbitalScheme) (id : Nat) (e : GEvent) (j : Nat) :
    (mapGet (winEvent s id e).windows j).isSome = (mapGet s.windows j).isSome := by
  rw [winEvent_windows]
  exact mapGet_mapSet_isSome _ _ _ _

theorem schedFront_eq (s : OrbitalScheme) : ∃ rs, schedFront s = {s with redraws := rs} := by
  unfold schedFront
  cases h : s.order.head? with
  | none => exact ⟨s.redraws, rfl⟩
  | some fid =>
    cases h2 : mapGet s.windows fid with
    | none => exact ⟨s.redraws, by simp only [h2]⟩
    | some fw =>
      exact ⟨schedule (schedule s.redraws fw.titleRect) fw.rect, by simp only [h2]; rfl⟩

/-! ### Coverage lemmas for `schedule` -/

theorem inUnion_nil (px py : Int) : inUnion [] px py = false := rfl

theorem inUnion_cons (r : Rect) (rs : List Rect) (px py : Int) :
    inUnion (r :: rs) px py = (r.containsPt px py || inUnion rs px py) := rfl

theorem containsPt_container_left (r q : Rect) (px py : Int)
    (h : r.containsPt px py = true) : (Rect.container r q).containsPt px py = true := by
  simp only [Rect.containsPt, Rect.container, Bool.and_eq_true, decide_eq_true_eq] at h ⊢
  obtain ⟨⟨⟨h1, h2⟩, h3⟩, h4⟩ := h
  refine ⟨⟨⟨?_, ?_⟩, ?_⟩, ?_⟩ <;> omega

theorem containsPt_container_right (r q : Rect) (px py : Int)
    (h : q.containsPt px py = true) : (Rect.container r q).containsPt px py = true := by
  simp only [Rect.containsPt, Rect.container, Bool.and_eq_true, decide_eq_true_eq] at h ⊢
  obtain ⟨⟨⟨h1, h2⟩, h3⟩, h4⟩ := h
  refine ⟨⟨⟨?_, ?_⟩, ?_⟩, ?_⟩ <;> omega

theorem inUnion_schedule (rs : List Rect) (req : Rect) (px py : Int)
    (h : inUnion rs px py = true ∨ req.containsPt px py = true) :
    inUnion (schedule rs req) px py = true := by
  induction rs with
  | nil =>
    rcases h with h | h
    · cases (inUnion_nil px py ▸ h :)
    · simp [schedule, inUnion_cons, h]
  | cons r rest ih =>
    simp only [schedule]
    by_cases hc : (Rect.container r req).area ≤ r.area + req.area
    · rw [if_pos hc, inUnion_cons]
      rcases h with h | h
      · rw [inUnion_cons, Bool.or_eq_true] at h
        rcases h with h | h
        · rw [containsPt_container_left r req px py h]
          rfl
        · rw [h, Bool.or_true]
      · rw [containsPt_container_right r req px py h]
        rfl
    · rw [if_neg hc, inUnion_cons]
      rcases h with h | h
      · rw [inUnion_cons, Bool.or_eq_true] at h
        rcases h with h | h
        · rw [h, Bool.true_or]
        · rw [ih (Or.inl h), Bool.or_true]
      · rw [ih (Or.inr h), Bool.or_true]

theorem inUnion_foldl_schedule (requests : List Rect) :
    ∀ (acc : List Rect) (px py : Int),
    inUnion acc px py = true ∨ inUnion requests px py = true →
    inUnion (requests.foldl schedule acc) px py = true := by
  induction requests with
  | nil =>
    intro acc px py h
    rcases h with h | h
    · exact h
    · cases (inUnion_nil px py ▸ h :)
  | cons q qs ih =>
    intro acc px py h
    rw [List.foldl_cons]
    apply ih
    rcases h with h | h
    · exact Or.inl (inUnion_schedule acc q px py (Or.inl h))
    · rw [inUnion_cons, Bool.or_eq_true] at h
      rcases h with h | h
      · exact Or.inl (inUnion_schedule acc q px py (Or.inr h))
      · exact Or.inr h

theorem inUnion_schedFront (s : OrbitalScheme) (px py : Int)
    (h : inUnion s.redraws px py = true) :
    inUnion (schedFront s).redraws px py = true := by
  unfold schedFront
  cases h1 : s.order.head? with
  | none => exact h
  | some fid =>
    cases h2 : mapGet s.windows fid with
    | none => simp only [h2]; exact h
    | some fw =>
      simp only [h2]
      exact inUnion_schedule _ _ _ _ (Or.inl (inUnion_schedule _ _ _ _ (Or.inl h)))

/-! ### `win_tab` and `key_event` shape lemmas -/

theorem keyEvent_tab (s : OrbitalScheme) (h : s.win_key = true) :
    keyEvent s ⟨0x0F, true⟩ = winTab {s with win_tabbing := true} := by
  simp [keyEvent, h]

theorem winTab_of_short (s : OrbitalScheme) (h : ¬ 1 < s.order.length) :
    winTab s = s := by
  unfold winTab
  rw [if_neg (by exact_mod_cast h)]

theorem winFocusFalse_skel (s : OrbitalScheme) (id : Nat) :
    (winFocusFalse s id).order = s.order ∧
    (winFocusFalse s id).dragging = s.dragging ∧
    (winFocusFalse s id).win_key = s.win_key ∧
    (winFocusFalse s id).win_tabbing = s.win_tabbing ∧
    (∀ j, (mapGet (winFocusFalse s id).windows j).isSome = (mapGet s.windows j).isSome) := by
  unfold winFocusFalse
  cases h : mapGet s.windows id with
  | none => exact ⟨rfl, rfl, rfl, rfl, fun j => rfl⟩
  | some w => exact ⟨rfl, rfl, rfl, rfl, fun j => winEvent_windows_isSome _ _ _ _⟩

theorem winFocusTrue_skel (s : OrbitalScheme) (id : Nat) :
    (winFocusTrue s id).order = s.order ∧
    (winFocusTrue s id).dragging = s.dragging ∧
    (winFocusTrue s id).win_key = s.win_key ∧
    (winFocusTrue s id).win_tabbing = s.win_tabbing ∧
    (∀ j, (mapGet (winFocusTrue s id).windows j).isSome = (mapGet s.windows j).isSome) := by
  unfold winFocusTrue
  cases h : mapGet s.windows id with
  | none => exact ⟨rfl, rfl, rfl, rfl, fun j => rfl⟩
  | some w => exact ⟨rfl, rfl, rfl, rfl, fun j => winEvent_windows_isSome _ _ _ _⟩

theorem winTabFocusOut_skel (s : OrbitalScheme) (id : Nat) (rest : List Nat)
    (horder : s.order = id :: rest) :
    (winTabFocusOut s).order = rest ++ [id] ∧
    (winTabFocusOut s).dragging = s.dragging ∧
    (winTabFocusOut s).win_key = s.win_key ∧
    (winTabFocusOut s).win_tabbing = s.win_tabbing ∧
    (∀ j, (mapGet (winTabFocusOut s).windows j).isSome = (mapGet s.windows j).isSome) := by
  unfold winTabFocusOut
  rw [horder]
  exact ⟨rfl, (winFocusFalse_skel s id).2.1, (winFocusFalse_skel s id).2.2.1,
    (winFocusFalse_skel s id).2.2.2.1, fun j => (winFocusFalse_skel s id).2.2.2.2 j⟩

theorem winTabFocusIn_skel (s : OrbitalScheme) :
    (winTabFocusIn s).order = s.order ∧
    (winTabFocusIn s).dragging = s.dragging ∧
    (winTabFocusIn s).win_key = s.win_key ∧
    (winTabFocusIn s).win_tabbing = s.win_tabbing ∧
    (∀ j, (mapGet (winTabFocusIn s).windows j).isSome = (mapGet s.windows j).isSome) := by
  unfold winTabFocusIn
  cases h : s.order.head? with
  | none => exact ⟨rfl, rfl, rfl, rfl, fun j => rfl⟩
  | some id2 =>
    exact ⟨(winFocusTrue_skel s id2).1, (winFocusTrue_skel s id2).2.1,
      (winFocusTrue_skel s id2).2.2.1, (winFocusTrue_skel s id2).2.2.2.1,
      fun j => (winFocusTrue_skel s id2).2.2.2.2 j⟩

theorem winTab_skel (s : OrbitalScheme) (id : Nat) (rest : List Nat)
    (horder : s.order = id :: rest) (hne : rest ≠ []) :
    (winTab s).order = rest ++ [id] ∧
    (winTab s).dragging = DragMode.None ∧
    (winTab s).win_key = s.win_key ∧
    (winTab s).win_tabbing = s.win_tabbing ∧
    (∀ j, (mapGet (winTab s).windows j).isSome = (mapGet s.windows j).isSome) := by
  have hlen : s.order.length > 1 := by
    rw [horder]
    cases rest with
    | nil => exact (hne rfl).elim
    | cons a t => simp
  unfold winTab
  rw [if_pos hlen]
  have hOut := winTabFocusOut_skel {s with dragging := DragMode.None} id rest horder
  have hIn := winTabFocusIn_skel (winTabFocusOut {s with dragging := DragMode.None})
  refine ⟨?_, ?_, ?_, ?_, fun j => ?_⟩
  · rw [hIn.1, hOut.1]
  · rw [hIn.2.1, hOut.2.1]
  · rw [hIn.2.2.1, hOut.2.2.1]
  · rw [hIn.2.2.2.1, hOut.2.2.2.1]
  · rw [hIn.2.2.2.2 j, hOut.2.2.2.2 j]

/-! ### Focus rotation -/

theorem keyTab_step (s : OrbitalScheme) (hkey : s.win_key = true)
    (hlen : 2 ≤ s.order.length) :
    (keyEvent s ⟨0x0F, true⟩).order = s.order.rotate 1 ∧
    (keyEvent s ⟨0x0F, true⟩).win_key = true ∧
    (keyEvent s ⟨0x0F, true⟩).order.length = s.order.length := by
  rw [keyEvent_tab s hkey]
  obtain ⟨id, rest, horder⟩ : ∃ a t, s.order = a :: t := by
    cases h : s.order with
    | nil => rw [h] at hlen; simp at hlen
    | cons a t => exact ⟨a, t, rfl⟩
  have hne : rest ≠ [] := by
    intro hr
    rw [horder, hr] at hlen
    simp at hlen
  have hskel := winTab_skel {s with win_tabbing := true} id rest horder hne
  refine ⟨?_, ?_, ?_⟩
  · rw [hskel.1, horder, List.rotate_cons_succ, List.rotate_zero]
  · rw [hskel.2.2.1]
    exact hkey
  · rw [hskel.1, horder]
    simp

theorem keyTab_iterate (k : Nat) (s : OrbitalScheme) (hkey : s.win_key = true)
    (hlen : 2 ≤ s.order.length) :
    ((fun t => keyEvent t ⟨0x0F, true⟩)^[k] s).order = s.order.rotate k := by
  induction k generalizing s with
  | zero => simp
  | succ k ih =>
    rw [Function.iterate_succ_apply]
    have hstep := keyTab_step s hkey hlen
    rw [ih _ hstep.2.1 (by rw [hstep.2.2]; exact hlen), hstep.1, List.rotate_rotate,
      Nat.add_comm]

/-- C6: with the modifier key held and `n ≥ 2` windows in `order`, `k`
presses of Tab place the window originally at index `k mod n` at the front
of `order`. -/
theorem c6_wintab_rotation (s : OrbitalScheme) (k : Nat)
    (hkey : s.win_key = true) (hlen : 2 ≤ s.order.length) :
    ((fun t => keyEvent t ⟨0x0F, true⟩)^[k] s).order.head? =
      s.order[k % s.order.length]? := by
  rw [keyTab_iterate k s hkey hlen, ← List.rotate_mod]
  exact List.head?_rotate (Nat.mod_lt _ (by omega))

/-- A two-window state with the modifier key held, used as concrete input. -/
def c6State : OrbitalScheme :=
  { newScheme 800 600 [] 8 8 with
      win_key := true
      order := [1, 2]
      windows := [(1, Window.new 10 10 100 50 [] false false),
                  (2, Window.new 30 40 80 60 [] false false)] }

theorem c6_wintab_rotation_witness :
    c6State.win_key = true ∧ 2 ≤ c6State.order.length ∧
    ((fun t => keyEvent t ⟨0x0F, true⟩)^[3] c6State).order.head? =
      c6State.order[3 % c6State.order.length]? :=
  ⟨rfl, by decide, c6_wintab_rotation c6State 3 rfl (by decide)⟩

/-- C9: pressing Tab with the modifier key held in a state with fewer than
two windows open sets `win_tabbing` and changes nothing else: `order`,
`windows` (hence every window's event queue), `dragging` and `redraws` are
all those of the original state. -/
theorem c9_wintab_single_window_frame (s : OrbitalScheme)
    (hkey : s.win_key = true) (hlen : s.order.length < 2) :
    keyEvent s ⟨0x0F, true⟩ = {s with win_tabbing := true} := by
  rw [keyEvent_tab s hkey]
  apply winTab_of_short
  have h2 : ({s with win_tabbing := true} : OrbitalScheme).order.length < 2 := hlen
  omega

/-- A one-window state with the modifier key held, used as concrete input. -/
def c9State : OrbitalScheme :=
  { newScheme 800 600 [] 8 8 with
      win_key := true
      order := [1]
      windows := [(1, Window.new 10 10 100 50 [] false false)]
      dragging := .Title 1 3 4 }

theorem c9_wintab_single_window_frame_witness :
    c9State.win_key = true ∧ c9State.order.length < 2 ∧
    keyEvent c9State ⟨0x0F, true⟩ = {c9State with win_tabbing := true} :=
  ⟨rfl, by decide, c9_wintab_single_window_frame c9State rfl (by decide)⟩

/-- C10: pressing Tab with the modifier key held in a state with at least two
windows open resets `dragging` to `None`, whatever drag was in progress. -/
theorem c10_wintab_cancels_drag (s : OrbitalScheme)
    (hkey : s.win_key = true) (hlen : 2 ≤ s.order.length) :
    (keyEvent s ⟨0x0F, true⟩).dragging = DragMode.None := by
  rw [keyEvent_tab s hkey]
  obtain ⟨id, rest, horder⟩ : ∃ a t, s.order = a :: t := by
    cases h : s.order with
    | nil => rw [h] at hlen; simp at hlen
    | cons a t => exact ⟨a, t, rfl⟩
  have hne : rest ≠ [] := by
    intro hr
    rw [horder, hr] at hlen
    simp at hlen
  exact (winTab_skel {s with win_tabbing := true} id rest horder hne).2.1

/-- A two-window state, modifier held, with a resize drag in progress. -/
def c10State : OrbitalScheme :=
  { newScheme 800 600 [] 8 8 with
      win_key := true
      order := [1, 2]
      windows := [(1, Window.new 10 10 100 50 [] false false),
                  (2, Window.new 30 40 80 60 [] false false)]
      dragging := .BottomRightBorder 1 0 0 }

theorem c10_wintab_cancels_drag_witness :
    c10State.win_key = true ∧ 2 ≤ c10State.order.length ∧
    (keyEvent c10State ⟨0x0F, true⟩).dragging = DragMode.None :=
  ⟨rfl, by decide, c10_wintab_cancels_drag c10State rfl (by decide)⟩

/-! ### C3, C4, C5 -/

/-- A two-rectangle damage sequence on which coalescing strictly grows the
union: the merge of (0,0,4,4) and (1,1,4,4) is their bounding box (0,0,5,5). -/
def c3Reqs : List Rect := [⟨0, 0, 4, 4⟩, ⟨1, 1, 4, 4⟩]

/-- C3 counterexample: starting from an empty `redraws`, scheduling
(0,0,4,4) then (1,1,4,4) coalesces them into (0,0,5,5); the point (0,4) lies
in the union of the final `redraws` but not in the union of the inputs, so
the two unions are not equal. -/
theorem c3_claim_counterexample :
    c3Reqs.foldl schedule [] = [⟨0, 0, 5, 5⟩] ∧
    inUnion (c3Reqs.foldl schedule []) 0 4 = true ∧
    inUnion c3Reqs 0 4 = false := by decide

/-- C3 (amended): for every sequence of rectangles scheduled into an empty
`redraws`, the union of the final `redraws` covers (but need not equal) the
union of the inputs: every point of an input rectangle is in some final
rectangle. -/
theorem c3_schedule_union_covers (requests : List Rect) (px py : Int)
    (h : inUnion requests px py = true) :
    inUnion (requests.foldl schedule []) px py = true :=
  inUnion_foldl_schedule requests [] px py (Or.inr h)

theorem c3_schedule_union_covers_witness :
    inUnion c3Reqs 2 2 = true ∧ inUnion (c3Reqs.foldl schedule []) 2 2 = true :=
  ⟨by decide, c3_schedule_union_covers c3Reqs 2 2 (by decide)⟩

/-- A simple one-window base state used for concrete inputs. -/
def baseWin : Window := Window.new 10 10 100 50 [] false false

/-- One window with id 1, empty damage list. -/
def baseState : OrbitalScheme :=
  { newScheme 800 600 [] 8 8 with
      order := [1]
      windows := [(1, baseWin)]
      redraws := [] }

/-- C4 (amended): after `redraw`, `redraws` is empty when `win_tabbing` is
false; when `win_tabbing` is true, `draw_window_list` has rescheduled exactly
the overlay rectangle, so `redraws` is the singleton of that rectangle. -/
theorem c4_redraw_redraws (s : OrbitalScheme) :
    (s.win_tabbing = false → (redraw s).redraws = []) ∧
    (s.win_tabbing = true → (redraw s).redraws = [windowListRect s]) := by
  constructor
  · intro h
    simp [redraw, h]
  · intro h
    simp [redraw, h, drawWindowList, schedRect_eq, schedule]
    rfl

/-- `baseState` with the window switcher active. -/
def c4StateOn : OrbitalScheme := {baseState with win_tabbing := true}

/-- C4 counterexample: in a state with `win_tabbing` set, `redraws` is not
empty after `redraw` returns — it holds the overlay rectangle scheduled by
`draw_window_list` for the next frame's background restore. -/
theorem c4_claim_counterexample :
    c4StateOn.win_tabbing = true ∧ (redraw c4StateOn).redraws ≠ [] := by decide

theorem c4_redraw_redraws_witness :
    (baseState.win_tabbing = false ∧ (redraw baseState).redraws = []) ∧
    (c4StateOn.win_tabbing = true ∧
      (redraw c4StateOn).redraws = [windowListRect c4StateOn]) :=
  ⟨⟨rfl, (c4_redraw_redraws baseState).1 rfl⟩,
   ⟨rfl, (c4_redraw_redraws c4StateOn).2 rfl⟩⟩

/-- Window 1 is 100×50 at the origin and a corner drag
`BottomRightBorder(1, 0, 0)` is in progress. -/
def c5State : OrbitalScheme :=
  { baseState with
      dragging := .BottomRightBorder 1 0 0
      windows := [(1, Window.new 0 0 100 50 [] false false)] }

/-- Mouse at (150, 50) with the left button held: requested size (150, 50). -/
def c5Event : MouseEvent := ⟨150, 50, true, false, false⟩

/-- C5 failing input: in drag state BottomRightBorder(1,0,0) with window 1 of
size 100×50 at the origin, a left-held mouse event at (150,50) computes
(w, h) = (150, 50): both positive and w differs from the window's width, so
the claim requires a resize event; the code's `w != width && h != height`
test fails (h equals the height) and delivers nothing — the window's event
queue stays empty. -/
theorem c5_corner_resize_failing_input :
    c5State.dragging = DragMode.BottomRightBorder 1 0 0 ∧
    c5Event.left = true ∧
    c5Event.x - 0 - 0 > 0 ∧ c5Event.y - 0 - 0 > 0 ∧
    c5Event.x - 0 - 0 ≠ 100 ∧ c5Event.y - 0 - 0 = 50 ∧
    (mapGet (mouseEvent c5State c5Event).windows 1).map Window.events = some [] := by
  decide

/-! ### C1 -/

/-- C1 (amended): a protocol operation that returns an error leaves the
compositor state unchanged — except an erroring `close`, which still runs
`order.retain(|e| e != id)` (a no-op in invariant states, where an id absent
from `windows` is also absent from `order`) and schedules damage for the
current front window before validating the handle, so `redraws` may grow
(its coverage only increases); `windows`, `dragging`, `next_id`, `next_x`
and `next_y` are unchanged by every erroring operation. -/
theorem c1_protocol_error_frame (s : OrbitalScheme) (op : POp)
    (h : isErr (protoStep s op).1 = true) :
    match op with
    | .opClose id =>
      (protoStep s op).2.windows = s.windows ∧
      (protoStep s op).2.dragging = s.dragging ∧
      (protoStep s op).2.next_id = s.next_id ∧
      (protoStep s op).2.next_x = s.next_x ∧
      (protoStep s op).2.next_y = s.next_y ∧
      (protoStep s op).2.order = s.order.filter (fun e => e != id) ∧
      ∀ px py, inUnion s.redraws px py = true →
        inUnion (protoStep s op).2.redraws px py = true
    | _ => (protoStep s op).2 = s := by
  cases op with
  | opOpen url =>
    cases url with
    | none => rfl
    | some p => simp [protoStep, schemeOpen, isErr] at h
  | opRead id cap =>
    cases hm : mapGet s.windows id with
    | none => simp [protoStep, schemeRead, hm]
    | some w =>
      by_cases he : w.events.isEmpty
      · simp [protoStep, schemeRead, hm, schemeReadGo, Window.readEvents, he]
      · simp [protoStep, schemeRead, hm, schemeReadGo, Window.readEvents, he, isErr] at h
  | opWrite id buf =>
    cases hm : mapGet s.windows id with
    | none => simp [protoStep, schemeWrite, hm]
    | some w =>
      cases buf with
      | none => simp [protoStep, schemeWrite, hm]
      | some msg =>
        by_cases hP : (splitOnChar ',' msg).head?.getD [] = ['P']
        · simp [protoStep, schemeWrite, hm, hP, isErr] at h
        · by_cases hS : (splitOnChar ',' msg).head?.getD [] = ['S']
          · simp [protoStep, schemeWrite, hm, hP, hS, isErr] at h
          · by_cases hT : (splitOnChar ',' msg).head?.getD [] = ['T']
            · simp [protoStep, schemeWrite, hm, hP, hS, hT, isErr] at h
            · simp [protoStep, schemeWrite, hm, hP, hS, hT]
  | opFevent id =>
    by_cases hm : (mapGet s.windows id).isSome
    · simp [protoStep, schemeFevent, hm, isErr] at h
    · simp [protoStep, schemeFevent, hm]
  | opFmap id offset size =>
    cases hm : mapGet s.windows id with
    | none => simp [protoStep, schemeFmap, hm]
    | some w =>
      by_cases hf : offset + size ≤ w.width.toNat * w.height.toNat * 4
      · simp [protoStep, schemeFmap, hm, schemeFmapGo, Window.mapBuf, hf, isErr] at h
      · simp [protoStep, schemeFmap, hm, schemeFmapGo, Window.mapBuf, hf]
  | opFpath id =>
    cases hm : mapGet s.windows id with
    | none => simp [protoStep, schemeFpath, hm]
    | some w => simp [protoStep, schemeFpath, hm, isErr] at h
  | opFsync id =>
    cases hm : mapGet s.windows id with
    | none => simp [protoStep, schemeFsync, hm]
    | some w => simp [protoStep, schemeFsync, hm, isErr] at h
  | opClose id =>
    cases hm : mapGet (schedFront {s with order := s.order.filter fun e => e != id}).windows
        id with
    | some w => simp [protoStep, schemeClose, hm, isErr] at h
    | none =>
      obtain ⟨rs, hsf⟩ := schedFront_eq {s with order := s.order.filter fun e => e != id}
      simp only [protoStep, schemeClose, hm]
      rw [hsf]
      exact ⟨rfl, rfl, rfl, rfl, rfl, rfl, fun px py hp =>
        hsf ▸ inUnion_schedFront {s with order := s.order.filter fun e => e != id} px py hp⟩

/-- C1 counterexample: in `baseState` (one window, id 1, empty `redraws`),
closing the unknown id 999 returns BadHandle yet grows `redraws`: the front
window's damage was scheduled before the handle was validated. -/
theorem c1_claim_counterexample :
    isErr (protoStep baseState (.opClose 999)).1 = true ∧
    (protoStep baseState (.opClose 999)).2.redraws ≠ baseState.redraws := by decide

theorem c1_protocol_error_frame_witness :
    isErr (protoStep baseState (.opFsync 999)).1 = true ∧
    (protoStep baseState (.opFsync 999)).2 = baseState :=
  ⟨by decide, c1_protocol_error_frame baseState (.opFsync 999) (by decide)⟩

/-! ### Invariant preservation (C2) -/

@[simp] theorem schedFront_order (s : OrbitalScheme) : (schedFront s).order = s.order := by
  obtain ⟨rs, h⟩ := schedFront_eq s
  rw [h]

@[simp] theorem schedFront_windows (s : OrbitalScheme) :
    (schedFront s).windows = s.windows := by
  obtain ⟨rs, h⟩ := schedFront_eq s
  rw [h]

theorem schemeInv_of (s t : OrbitalScheme) (h : SchemeInv s)
    (ho : t.order = s.order)
    (hw : ∀ j, (mapGet t.windows j).isSome = (mapGet s.windows j).isSome) :
    SchemeInv t := by
  intro i
  rw [ho, hw i]
  exact h i

theorem mem_cons_eraseIdx (l : List Nat) (k a x : Nat) (h : l[k]? = some a) :
    x ∈ a :: l.eraseIdx k ↔ x ∈ l := by
  rw [List.mem_cons, List.mem_eraseIdx_iff_getElem?]
  constructor
  · rintro (rfl | ⟨i, hik, hi⟩)
    · exact List.getElem?_mem h
    · exact List.getElem?_mem hi
  · intro hx
    obtain ⟨i, hi⟩ := List.mem_iff_getElem?.1 hx
    by_cases hik : i = k
    · subst hik
      rw [h] at hi
      exact Or.inl (Option.some.inj hi).symm
    · exact Or.inr ⟨i, hik, hi⟩

theorem schemeOpen_inv (s : OrbitalScheme) (url : Option (List Char)) (h : SchemeInv s) :
    SchemeInv (schemeOpen s url).2 := by
  cases url with
  | none => exact h
  | some p =>
    intro i
    by_cases hi : asUsize s.next_id = i
    · simp [schemeOpen, mapInsert, mapGet_cons, hi]
    · have hi2 : ¬ i = asUsize s.next_id := fun c => hi c.symm
      simp [schemeOpen, mapInsert, mapGet_cons, hi, hi2, List.mem_cons]
      exact h i

theorem schemeClose_inv (s : OrbitalScheme) (id : Nat) (h : SchemeInv s) :
    SchemeInv (schemeClose s id).2 := by
  intro i
  cases hm : mapGet (schedFront {s with order := s.order.filter fun e => e != id}).windows
      id with
  | none =>
    simp only [schemeClose, hm]
    rw [schedFront_windows] at hm
    by_cases hi : i = id
    · subst hi
      simp only [schedFront_order, schedFront_windows]
      simp [List.mem_filter, hm]
    · simp only [schedFront_order, schedFront_windows]
      simp [List.mem_filter, hi, bne_iff_ne]
      exact h i
  | some w =>
    simp only [schemeClose, hm]
    rw [schedFront_windows] at hm
    by_cases hi : i = id
    · subst hi
      simp [List.mem_filter, mapGet_mapRemove]
    · simp [List.mem_filter, mapGet_mapRemove, hi, bne_iff_ne]
      exact h i

theorem schemeRead_skel (s : OrbitalScheme) (id cap : Nat) :
    (schemeRead s id cap).2.order = s.order ∧
    (∀ j, (mapGet (schemeRead s id cap).2.windows j).isSome =
      (mapGet s.windows j).isSome) := by
  cases hm : mapGet s.windows id with
  | none => refine ⟨?_, fun j => ?_⟩ <;> simp [schemeRead, hm]
  | some w =>
    by_cases he : w.events.isEmpty
    · constructor
      · simp [schemeRead, hm, schemeReadGo, Window.readEvents, he]
      · intro j
        simp [schemeRead, hm, schemeReadGo, Window.readEvents, he]
    · constructor
      · simp [schemeRead, hm, schemeReadGo, Window.readEvents, he]
      · intro j
        simp [schemeRead, hm, schemeReadGo, Window.readEvents, he, mapGet_mapSet_isSome]

theorem schemeWrite_skel (s : OrbitalScheme) (id : Nat) (buf : Option (List Char)) :
    (schemeWrite s id buf).2.order = s.order ∧
    (∀ j, (mapGet (schemeWrite s id buf).2.windows j).isSome =
      (mapGet s.windows j).isSome) := by
  cases hm : mapGet s.windows id with
  | none => refine ⟨?_, fun j => ?_⟩ <;> simp [schemeWrite, hm]
  | some w =>
    cases buf with
    | none => simp [schemeWrite, hm]
    | some msg =>
      by_cases hP : (splitOnChar ',' msg).head?.getD [] = ['P']
      · constructor
        · simp [schemeWrite, hm, hP]
        · intro j
          simp [schemeWrite, hm, hP, mapGet_mapSet_isSome]
      · by_cases hS : (splitOnChar ',' msg).head?.getD [] = ['S']
        · constructor
          · simp [schemeWrite, hm, hP, hS]
          · intro j
            simp [schemeWrite, hm, hP, hS, mapGet_mapSet_isSome]
        · by_cases hT : (splitOnChar ',' msg).head?.getD [] = ['T']
          · constructor
            · simp [schemeWrite, hm, hP, hS, hT]
            · intro j
              simp [schemeWrite, hm, hP, hS, hT, mapGet_mapSet_isSome]
          · simp [schemeWrite, hm, hP, hS, hT]

theorem schemeFevent_skel (s : OrbitalScheme) (id : Nat) :
    (schemeFevent s id).2 = s := by
  by_cases hm : (mapGet s.windows id).isSome <;> simp [schemeFevent, hm]

theorem schemeFmap_skel (s : OrbitalScheme) (id offset size : Nat) :
    (schemeFmap s id offset size).2 = s := by
  cases hm : mapGet s.windows id with
  | none => simp [schemeFmap, hm]
  | some w =>
    by_cases hf : offset + size ≤ w.width.toNat * w.height.toNat * 4 <;>
      simp [schemeFmap, hm, schemeFmapGo, Window.mapBuf, hf]

theorem schemeFpath_skel (s : OrbitalScheme) (id : Nat) :
    (schemeFpath s id).2 = s := by
  cases hm : mapGet s.windows id with
  | none => simp [schemeFpath, hm]
  | some w => simp [schemeFpath, hm]

theorem schemeFsync_skel (s : OrbitalScheme) (id : Nat) :
    (schemeFsync s id).2.order = s.order ∧
    (schemeFsync s id).2.windows = s.windows := by
  cases hm : mapGet s.windows id with
  | none => refine ⟨?_, ?_⟩ <;> simp [schemeFsync, hm]
  | some w => simp [schemeFsync, hm]

@[simp] theorem backgroundSwitch_order (s : OrbitalScheme) :
    (backgroundSwitch s).order = s.order := rfl

@[simp] theorem backgroundSwitch_windows (s : OrbitalScheme) :
    (backgroundSwitch s).windows = s.windows := rfl

theorem keyEvent_inv (s : OrbitalScheme) (ev : KeyEvent) (h : SchemeInv s) :
    SchemeInv (keyEvent s ev) := by
  unfold keyEvent
  by_cases h38 : ev.scancode = 0x38
  · rw [if_pos h38]
    cases hp : ev.pressed <;>
      exact schemeInv_of s _ h rfl (fun j => rfl)
  · rw [if_neg h38]
    by_cases hwk : s.win_key
    · rw [if_pos hwk]
      by_cases h01 : ev.scancode = 0x01
      · rw [if_pos h01]
        cases hp : ev.pressed with
        | false => exact h
        | true =>
          simp only [if_pos rfl]
          cases hh : s.order.head? with
          | none => exact h
          | some id => exact schemeInv_of s _ h rfl (fun j => winEvent_windows_isSome _ _ _ _)
      · rw [if_neg h01]
        by_cases h0F : ev.scancode = 0x0F
        · rw [if_pos h0F]
          cases hp : ev.pressed with
          | false => exact h
          | true =>
            show SchemeInv (winTab {s with win_tabbing := true})
            by_cases hlen : 1 < s.order.length
            · obtain ⟨id, rest, horder⟩ : ∃ a t, s.order = a :: t := by
                cases ho : s.order with
                | nil => rw [ho] at hlen; simp at hlen
                | cons a t => exact ⟨a, t, rfl⟩
              have hne : rest ≠ [] := by
                intro hr
                rw [horder, hr] at hlen
                simp at hlen
              have hskel := winTab_skel {s with win_tabbing := true} id rest horder hne
              intro i
              rw [hskel.1, hskel.2.2.2.2 i]
              have := h i
              rw [horder] at this
              simp only [List.mem_append, List.mem_cons, List.mem_singleton] at this ⊢
              tauto
            · rw [winTab_of_short {s with win_tabbing := true} hlen]
              exact schemeInv_of s _ h rfl (fun j => rfl)
        · rw [if_neg h0F]
          by_cases h0E : ev.scancode = 0x0E
          · rw [if_pos h0E]
            cases hp : ev.pressed with
            | false => exact h
            | true =>
              show SchemeInv (backgroundSwitch s)
              exact schemeInv_of s _ h (backgroundSwitch_order s)
                (fun j => by rw [backgroundSwitch_windows])
          · rw [if_neg h0E]
            exact h
    · rw [if_neg hwk]
      cases hh : s.order.head? with
      | none => exact h
      | some id => exact schemeInv_of s _ h rfl (fun j => winEvent_windows_isSome _ _ _ _)

theorem mouseHit_skel (s : OrbitalScheme) (ev : MouseEvent) :
    ∀ (ids : List Nat) (i : Nat),
      (mouseHit s ev ids i).2.order = s.order ∧
      (∀ j, (mapGet (mouseHit s ev ids i).2.windows j).isSome =
        (mapGet s.windows j).isSome) := by
  intro ids
  induction ids with
  | nil => intro i; exact ⟨rfl, fun j => rfl⟩
  | cons id rest ih =>
    intro i
    cases hm : mapGet s.windows id with
    | none =>
      simp only [mouseHit, hm]
      exact ih (i + 1)
    | some w =>
      simp only [mouseHit, hm]
      by_cases h1 : w.rect.containsPt ev.x ev.y
      · simp only [h1, if_true]
        exact ⟨rfl, fun j => winEvent_windows_isSome _ _ _ _⟩
      · simp only [h1, if_false, Bool.false_eq_true]
        by_cases h2 : w.titleRect.containsPt ev.x ev.y
        · simp only [h2, if_true]
          by_cases hb : ev.left && !s.cursor_left
          · simp only [hb, if_true]
            by_cases hx : w.exitContains ev.x ev.y
            · simp only [hx, if_true]
              exact ⟨rfl, fun j => winEvent_windows_isSome _ _ _ _⟩
            · simp only [hx, if_false, Bool.false_eq_true]
              exact ⟨trivial, fun j => trivial⟩
          · simp only [hb, if_false, Bool.false_eq_true]
            exact ⟨trivial, fun j => trivial⟩
        · simp only [h2, if_false, Bool.false_eq_true]
          by_cases h3 : w.rightBorderRect.containsPt ev.x ev.y
          · simp only [h3, if_true]
            by_cases hb : ev.left && !s.cursor_left
            · simp only [hb, if_true]
              exact ⟨trivial, fun j => trivial⟩
            · simp only [hb, if_false, Bool.false_eq_true]
              exact ⟨trivial, fun j => trivial⟩
          · simp only [h3, if_false, Bool.false_eq_true]
            by_cases h4 : w.bottomBorderRect.containsPt ev.x ev.y
            · simp only [h4, if_true]
              by_cases hb : ev.left && !s.cursor_left
              · simp only [hb, if_true]
                exact ⟨trivial, fun j => trivial⟩
              · simp only [hb, if_false, Bool.false_eq_true]
                exact ⟨trivial, fun j => trivial⟩
            · simp only [h4, if_false, Bool.false_eq_true]
              by_cases h5 : w.bottomRightBorderRect.containsPt ev.x ev.y
              · simp only [h5, if_true]
                by_cases hb : ev.left && !s.cursor_left
                · simp only [hb, if_true]
                  exact ⟨trivial, fun j => trivial⟩
                · simp only [hb, if_false, Bool.false_eq_true]
                  exact ⟨trivial, fun j => trivial⟩
              · simp only [h5, if_false, Bool.false_eq_true]
                exact ih (i + 1)

theorem refocusGo_inv (s1 : OrbitalScheme) (focus : Nat) (h : SchemeInv s1) :
    SchemeInv (refocusGo s1 focus) := by
  unfold refocusGo
  cases hg : s1.order[focus]? with
  | none => exact h
  | some id =>
    intro i
    have hmem := mem_cons_eraseIdx s1.order focus id i hg
    show i ∈ id :: s1.order.eraseIdx focus ↔
      (mapGet (winFocusTrue {s1 with order := s1.order.eraseIdx focus} id).windows i).isSome
    rw [(winFocusTrue_skel {s1 with order := s1.order.eraseIdx focus} id).2.2.2.2 i, hmem]
    exact h i

theorem refocus_inv (s : OrbitalScheme) (focus : Nat) (h : SchemeInv s) :
    SchemeInv (refocus s focus) := by
  unfold refocus
  by_cases hf : focus > 0
  · rw [if_pos hf]
    cases hh : s.order.head? with
    | none => exact refocusGo_inv s focus h
    | some fid =>
      refine refocusGo_inv (winFocusFalse s fid) focus ?_
      exact schemeInv_of s _ h (winFocusFalse_skel s fid).1
        (fun j => (winFocusFalse_skel s fid).2.2.2.2 j)
  · rw [if_neg hf]
    exact h

theorem mouseDragTitleGo_inv (s : OrbitalScheme) (ev : MouseEvent) (wid : Nat)
    (gx gy : Int) (w : Window) (h : SchemeInv s) :
    SchemeInv (mouseDragTitleGo s ev wid gx gy w) := by
  unfold mouseDragTitleGo
  by_cases hc : gx ≠ ev.x ∨ gy ≠ ev.y
  · rw [if_pos hc]
    refine schemeInv_of s _ h ?_ ?_
    · simp
    · intro j
      simp [winEvent_windows, mapGet_mapSet_isSome]
  · rw [if_neg hc]
    exact h

theorem mouseDragRightGo_inv (s : OrbitalScheme) (ev : MouseEvent) (wid : Nat)
    (offx : Int) (w : Window) (h : SchemeInv s) :
    SchemeInv (mouseDragRightGo s ev wid offx w) := by
  unfold mouseDragRightGo
  by_cases hc : ev.x - offx - w.x > 0 ∧ ev.x - offx - w.x ≠ w.width
  · rw [if_pos hc]
    exact schemeInv_of s _ h rfl (fun j => winEvent_windows_isSome _ _ _ _)
  · rw [if_neg hc]
    exact h

theorem mouseDragBottomGo_inv (s : OrbitalScheme) (ev : MouseEvent) (wid : Nat)
    (offy : Int) (w : Window) (h : SchemeInv s) :
    SchemeInv (mouseDragBottomGo s ev wid offy w) := by
  unfold mouseDragBottomGo
  by_cases hc : ev.y - offy - w.y > 0 ∧ ev.y - offy - w.y ≠ w.height
  · rw [if_pos hc]
    exact schemeInv_of s _ h rfl (fun j => winEvent_windows_isSome _ _ _ _)
  · rw [if_neg hc]
    exact h

theorem mouseDragBottomRightGo_inv (s : OrbitalScheme) (ev : MouseEvent) (wid : Nat)
    (offx offy : Int) (w : Window) (h : SchemeInv s) :
    SchemeInv (mouseDragBottomRightGo s ev wid offx offy w) := by
  unfold mouseDragBottomRightGo
  by_cases hc : ev.x - offx - w.x > 0 ∧ ev.y - offy - w.y > 0 ∧
    ev.x - offx - w.x ≠ w.width ∧ ev.y - offy - w.y ≠ w.height
  · rw [if_pos hc]
    exact schemeInv_of s _ h rfl (fun j => winEvent_windows_isSome _ _ _ _)
  · rw [if_neg hc]
    exact h

theorem mouseDragTitle_inv (s : OrbitalScheme) (ev : MouseEvent) (wid : Nat)
    (gx gy : Int) (h : SchemeInv s) : SchemeInv (mouseDragTitle s ev wid gx gy) := by
  unfold mouseDragTitle
  by_cases hl : ev.left = true
  · rw [if_pos hl]
    cases hm : mapGet s.windows wid with
    | none => exact schemeInv_of s _ h rfl (fun j => rfl)
    | some w => exact mouseDragTitleGo_inv s ev wid gx gy w h
  · rw [if_neg hl]
    exact schemeInv_of s _ h rfl (fun j => rfl)

theorem mouseDragRight_inv (s : OrbitalScheme) (ev : MouseEvent) (wid : Nat)
    (offx : Int) (h : SchemeInv s) : SchemeInv (mouseDragRight s ev wid offx) := by
  unfold mouseDragRight
  by_cases hl : ev.left = true
  · rw [if_pos hl]
    cases hm : mapGet s.windows wid with
    | none => exact schemeInv_of s _ h rfl (fun j => rfl)
    | some w => exact mouseDragRightGo_inv s ev wid offx w h
  · rw [if_neg hl]
    exact schemeInv_of s _ h rfl (fun j => rfl)

theorem mouseDragBottom_inv (s : OrbitalScheme) (ev : MouseEvent) (wid : Nat)
    (offy : Int) (h : SchemeInv s) : SchemeInv (mouseDragBottom s ev wid offy) := by
  unfold mouseDragBottom
  by_cases hl : ev.left = true
  · rw [if_pos hl]
    cases hm : mapGet s.windows wid with
    | none => exact schemeInv_of s _ h rfl (fun j => rfl)
    | some w => exact mouseDragBottomGo_inv s ev wid offy w h
  · rw [if_neg hl]
    exact schemeInv_of s _ h rfl (fun j => rfl)

theorem mouseDragBottomRight_inv (s : OrbitalScheme) (ev : MouseEvent) (wid : Nat)
    (offx offy : Int) (h : SchemeInv s) :
    SchemeInv (mouseDragBottomRight s ev wid offx offy) := by
  unfold mouseDragBottomRight
  by_cases hl : ev.left = true
  · rw [if_pos hl]
    cases hm : mapGet s.windows wid with
    | none => exact schemeInv_of s _ h rfl (fun j => rfl)
    | some w => exact mouseDragBottomRightGo_inv s ev wid offx offy w h
  · rw [if_neg hl]
    exact schemeInv_of s _ h rfl (fun j => rfl)

theorem mouseDrag_inv (s : OrbitalScheme) (ev : MouseEvent) (h : SchemeInv s) :
    SchemeInv (mouseDrag s ev) := by
  unfold mouseDrag
  cases hd : s.dragging with
  | None =>
    exact refocus_inv _ _ (schemeInv_of s _ h (mouseHit_skel s ev s.order 0).1
      (fun j => (mouseHit_skel s ev s.order 0).2 j))
  | Title wid gx gy => exact mouseDragTitle_inv s ev wid gx gy h
  | RightBorder wid offx => exact mouseDragRight_inv s ev wid offx h
  | BottomBorder wid offy => exact mouseDragBottom_inv s ev wid offy h
  | BottomRightBorder wid offx offy => exact mouseDragBottomRight_inv s ev wid offx offy h

theorem mouseEvent_skel (s : OrbitalScheme) (ev : MouseEvent) :
    (mouseEvent s ev).order = (mouseDrag s ev).order ∧
    (mouseEvent s ev).windows = (mouseDrag s ev).windows ∧
    (mouseEvent s ev).dragging = (mouseDrag s ev).dragging := by
  unfold mouseEvent
  by_cases hc : ev.x ≠ (mouseDrag s ev).cursor_x ∨ ev.y ≠ (mouseDrag s ev).cursor_y
  · simp [hc]
  · simp [hc]

theorem mouseEvent_inv (s : OrbitalScheme) (ev : MouseEvent) (h : SchemeInv s) :
    SchemeInv (mouseEvent s ev) :=
  schemeInv_of (mouseDrag s ev) _ (mouseDrag_inv s ev h) (mouseEvent_skel s ev).1
    (fun j => by rw [(mouseEvent_skel s ev).2.1])

theorem scrollEvent_inv (s : OrbitalScheme) (sx sy : Int) (h : SchemeInv s) :
    SchemeInv (scrollEvent s sx sy) := by
  unfold scrollEvent
  cases hh : s.order.head? with
  | none => exact h
  | some id => exact schemeInv_of s _ h rfl (fun j => winEvent_windows_isSome _ _ _ _)

theorem step_inv (s : OrbitalScheme) (op : Op) (h : SchemeInv s) : SchemeInv (step s op) := by
  cases op with
  | proto p =>
    cases p with
    | opOpen url => exact schemeOpen_inv s url h
    | opRead id cap =>
      exact schemeInv_of s _ h (schemeRead_skel s id cap).1
        (fun j => (schemeRead_skel s id cap).2 j)
    | opWrite id buf =>
      exact schemeInv_of s _ h (schemeWrite_skel s id buf).1
        (fun j => (schemeWrite_skel s id buf).2 j)
    | opFevent id =>
      refine schemeInv_of s _ h ?_ ?_
      · show (schemeFevent s id).2.order = s.order
        rw [schemeFevent_skel]
      · intro j
        show (mapGet (schemeFevent s id).2.windows j).isSome = (mapGet s.windows j).isSome
        rw [schemeFevent_skel]
    | opFmap id offset size =>
      refine schemeInv_of s _ h ?_ ?_
      · show (schemeFmap s id offset size).2.order = s.order
        rw [schemeFmap_skel]
      · intro j
        show (mapGet (schemeFmap s id offset size).2.windows j).isSome =
          (mapGet s.windows j).isSome
        rw [schemeFmap_skel]
    | opFpath id =>
      refine schemeInv_of s _ h ?_ ?_
      · show (schemeFpath s id).2.order = s.order
        rw [schemeFpath_skel]
      · intro j
        show (mapGet (schemeFpath s id).2.windows j).isSome = (mapGet s.windows j).isSome
        rw [schemeFpath_skel]
    | opFsync id =>
      refine schemeInv_of s _ h (schemeFsync_skel s id).1 ?_
      intro j
      show (mapGet (schemeFsync s id).2.windows j).isSome = (mapGet s.windows j).isSome
      rw [(schemeFsync_skel s id).2]
    | opClose id => exact schemeClose_inv s id h
  | key ev => exact keyEvent_inv s ev h
  | mouse ev => exact mouseEvent_inv s ev h
  | scroll sx sy => exact scrollEvent_inv s sx sy h

theorem newScheme_inv (w h : Int) (bgs : List (Int × Int)) (cw ch : Int) :
    SchemeInv (newScheme w h bgs cw ch) := by
  intro i
  simp [newScheme, mapGet]

/-- C2: in every state reachable from the initial state by any sequence of
protocol operations (open, read, write, fevent, fmap, fpath, fsync, close)
and input events (key — including win-tab — mouse and scroll), an id is in
the deque `order` iff it is a key of the map `windows`. -/
theorem c2_order_windows_agree (w h : Int) (bgs : List (Int × Int)) (cw ch : Int)
    (ops : List Op) : SchemeInv (run w h bgs cw ch ops) := by
  suffices H : ∀ (l : List Op) (s : OrbitalScheme), SchemeInv s →
      SchemeInv (l.foldl step s) by
    exact H ops _ (newScheme_inv w h bgs cw ch)
  intro l
  induction l with
  | nil => intro s hs; exact hs
  | cons op rest ih =>
    intro s hs
    rw [List.foldl_cons]
    exact ih _ (step_inv s op hs)

/-! ### C7: title-drag motion -/

/-- The position of the last event of a sequence (the grab point when empty). -/
def lastPos (g : Int × Int) : List MouseEvent → Int × Int
  | [] => g
  | e :: rest => lastPos (e.x, e.y) rest

theorem deltaSum_eq (g : Int × Int) (es : List MouseEvent) :
    deltaSum g es = ((lastPos g es).1 - g.1, (lastPos g es).2 - g.2) := by
  induction es generalizing g with
  | nil => simp [deltaSum, lastPos]
  | cons e rest ih =>
    simp only [deltaSum, lastPos, ih (e.x, e.y)]
    refine Prod.ext ?_ ?_ <;> simp

theorem mouseDragTitleGo_step (s : OrbitalScheme) (ev : MouseEvent) (wid : Nat)
    (px py : Int) (wcur : Window)
    (hd : s.dragging = DragMode.Title wid px py)
    (hw : mapGet s.windows wid = some wcur) :
    ∃ q', (mouseDragTitleGo s ev wid px py wcur).dragging = DragMode.Title wid ev.x ev.y ∧
      mapGet (mouseDragTitleGo s ev wid px py wcur).windows wid =
        some {wcur with x := wcur.x + (ev.x - px), y := wcur.y + (ev.y - py),
                        events := q'} := by
  unfold mouseDragTitleGo
  by_cases hc : px ≠ ev.x ∨ py ≠ ev.y
  · rw [if_pos hc]
    refine ⟨wcur.events ++ [GEvent.move (wcur.x + (ev.x - px)) (wcur.y + (ev.y - py))],
      ?_, ?_⟩
    · simp
    · show mapGet (mapSet (mapSet s.windows wid (fun _ =>
          { wcur with
              x := wcur.x + (ev.x - px)
              y := wcur.y + (ev.y - py) })) wid
          (fun v => v.pushEvent (GEvent.move (wcur.x + (ev.x - px)) (wcur.y + (ev.y - py)))))
          wid =
        some { wcur with
            x := wcur.x + (ev.x - px)
            y := wcur.y + (ev.y - py)
            events :=
              wcur.events ++ [GEvent.move (wcur.x + (ev.x - px)) (wcur.y + (ev.y - py))] }
      rw [mapGet_mapSet_self _ _ _ _ (mapGet_mapSet_self _ _ _ _ hw)]
      rfl
  · rw [if_neg hc]
    push_neg at hc
    obtain ⟨hx, hy⟩ := hc
    refine ⟨wcur.events, ?_, ?_⟩
    · rw [hd, hx, hy]
    · have h1 : wcur.x + (ev.x - px) = wcur.x := by rw [← hx]; ring
      have h2 : wcur.y + (ev.y - py) = wcur.y := by rw [← hy]; ring
      rw [h1, h2]
      exact hw

theorem mouseDragTitle_step (s : OrbitalScheme) (ev : MouseEvent) (wid : Nat)
    (px py : Int) (wcur : Window) (hl : ev.left = true)
    (hd : s.dragging = DragMode.Title wid px py)
    (hw : mapGet s.windows wid = some wcur) :
    ∃ q', (mouseDragTitle s ev wid px py).dragging = DragMode.Title wid ev.x ev.y ∧
      mapGet (mouseDragTitle s ev wid px py).windows wid =
        some {wcur with x := wcur.x + (ev.x - px), y := wcur.y + (ev.y - py),
                        events := q'} := by
  unfold mouseDragTitle
  rw [if_pos hl, hw]
  exact mouseDragTitleGo_step s ev wid px py wcur hd hw

theorem mouseEvent_title_step (s : OrbitalScheme) (ev : MouseEvent) (wid : Nat)
    (px py : Int) (wcur : Window) (hl : ev.left = true)
    (hd : s.dragging = DragMode.Title wid px py)
    (hw : mapGet s.windows wid = some wcur) :
    ∃ q', (mouseEvent s ev).dragging = DragMode.Title wid ev.x ev.y ∧
      mapGet (mouseEvent s ev).windows wid =
        some {wcur with x := wcur.x + (ev.x - px), y := wcur.y + (ev.y - py),
                        events := q'} := by
  have hdrag : mouseDrag s ev = mouseDragTitle s ev wid px py := by
    unfold mouseDrag
    rw [hd]
  obtain ⟨q', h1, h2⟩ := mouseDragTitle_step s ev wid px py wcur hl hd hw
  refine ⟨q', ?_, ?_⟩
  · rw [(mouseEvent_skel s ev).2.2, hdrag]
    exact h1
  · rw [(mouseEvent_skel s ev).2.1, hdrag]
    exact h2

theorem title_drag_run (es : List MouseEvent) :
    ∀ (s : OrbitalScheme) (wid : Nat) (px py : Int) (wcur : Window),
    (∀ e ∈ es, e.left = true) →
    s.dragging = DragMode.Title wid px py →
    mapGet s.windows wid = some wcur →
    ∃ q', (es.foldl mouseEvent s).dragging =
        DragMode.Title wid (lastPos (px, py) es).1 (lastPos (px, py) es).2 ∧
      mapGet (es.foldl mouseEvent s).windows wid =
        some {wcur with x := wcur.x + ((lastPos (px, py) es).1 - px),
                        y := wcur.y + ((lastPos (px, py) es).2 - py),
                        events := q'} := by
  induction es with
  | nil =>
    intro s wid px py wcur hall hd hw
    refine ⟨wcur.events, ?_, ?_⟩
    · simpa [lastPos] using hd
    · have h1 : wcur.x + (px - px) = wcur.x := by ring
      have h2 : wcur.y + (py - py) = wcur.y := by ring
      simp only [List.foldl_nil, lastPos, h1, h2]
      exact hw
  | cons e rest ih =>
    intro s wid px py wcur hall hd hw
    rw [List.foldl_cons]
    obtain ⟨q1, hd1, hw1⟩ :=
      mouseEvent_title_step s e wid px py wcur (hall e (by simp)) hd hw
    obtain ⟨q', hd2, hw2⟩ := ih (mouseEvent s e) wid e.x e.y _
      (fun e' he' => hall e' (by simp [he'])) hd1 hw1
    refine ⟨q', ?_, ?_⟩
    · rw [hd2]
      simp [lastPos]
    · rw [hw2]
      show _ = some {wcur with
        x := wcur.x + ((lastPos (e.x, e.y) rest).1 - px),
        y := wcur.y + ((lastPos (e.x, e.y) rest).2 - py), events := q'}
      have h1 : wcur.x + (e.x - px) + ((lastPos (e.x, e.y) rest).1 - e.x) =
          wcur.x + ((lastPos (e.x, e.y) rest).1 - px) := by ring
      have h2 : wcur.y + (e.y - py) + ((lastPos (e.x, e.y) rest).2 - e.y) =
          wcur.y + ((lastPos (e.x, e.y) rest).2 - py) := by ring
      rw [← h1, ← h2]

theorem mouseEvent_title_release (s : OrbitalScheme) (ev : MouseEvent) (wid : Nat)
    (px py : Int) (hl : ev.left = false) (hd : s.dragging = DragMode.Title wid px py) :
    (mouseEvent s ev).dragging = DragMode.None ∧
    (mouseEvent s ev).windows = s.windows := by
  have hdrag : mouseDrag s ev = {s with dragging := DragMode.None} := by
    unfold mouseDrag
    rw [hd]
    show mouseDragTitle s ev wid px py = _
    unfold mouseDragTitle
    rw [if_neg (by simp [hl])]
  constructor
  · rw [(mouseEvent_skel s ev).2.2, hdrag]
  · rw [(mouseEvent_skel s ev).2.1, hdrag]

/-- C7: starting a `Title` drag with grab point (gx, gy) on an existing
window, a sequence of left-held mouse events followed by a left-release
shifts the window's position by exactly the sum of the per-event deltas
measured from the grab point, and leaves `dragging = None`. -/
theorem c7_title_drag_total_delta (s : OrbitalScheme) (wid : Nat) (gx gy : Int)
    (w0 : Window) (es : List MouseEvent) (rel : MouseEvent)
    (hall : ∀ e ∈ es, e.left = true) (hrel : rel.left = false)
    (hd : s.dragging = DragMode.Title wid gx gy)
    (hw : mapGet s.windows wid = some w0) :
    (mouseEvent (es.foldl mouseEvent s) rel).dragging = DragMode.None ∧
    (mapGet (mouseEvent (es.foldl mouseEvent s) rel).windows wid).map
        (fun v => (v.x, v.y)) =
      some (w0.x + (deltaSum (gx, gy) es).1, w0.y + (deltaSum (gx, gy) es).2) := by
  obtain ⟨q', hd1, hw1⟩ := title_drag_run es s wid gx gy w0 hall hd hw
  have hrel2 := mouseEvent_title_release (es.foldl mouseEvent s) rel wid _ _ hrel hd1
  refine ⟨hrel2.1, ?_⟩
  rw [hrel2.2, hw1, deltaSum_eq]
  simp

/-- A `Title` drag in progress on `baseState`'s window, grabbed at (50, 5). -/
def c7State : OrbitalScheme := {baseState with dragging := .Title 1 50 5}

/-- Two left-held motions: to (70, 5) then to (70, 25). -/
def c7Events : List MouseEvent :=
  [⟨70, 5, true, false, false⟩, ⟨70, 25, true, false, false⟩]

/-- Left-button release at (70, 25). -/
def c7Rel : MouseEvent := ⟨70, 25, false, false, false⟩

theorem c7_title_drag_total_delta_witness :
    (mouseEvent (c7Events.foldl mouseEvent c7State) c7Rel).dragging = DragMode.None ∧
    (mapGet (mouseEvent (c7Events.foldl mouseEvent c7State) c7Rel).windows 1).map
        (fun v => (v.x, v.y)) = some (30, 30) :=
  c7_title_drag_total_delta c7State 1 50 5 baseWin c7Events c7Rel
    (by decide) (by decide) (by decide) (by decide)

/-! ### C8: write P/S field parsing -/

theorem splitOnChar_not_mem (sep : Char) (a : List Char) (h : sep ∉ a) :
    splitOnChar sep a = [a] := by
  induction a with
  | nil => rfl
  | cons c rest ih =>
    have hc : ¬ c = sep := fun e => h (e ▸ List.mem_cons_self c rest)
    have hr : sep ∉ rest := fun hm => h (List.mem_cons_of_mem _ hm)
    simp [splitOnChar, hc, ih hr]

theorem splitOnChar_append (sep : Char) (a t : List Char) (h : sep ∉ a) :
    splitOnChar sep (a ++ sep :: t) = a :: splitOnChar sep t := by
  induction a with
  | nil => simp [splitOnChar]
  | cons c rest ih =>
    have hc : ¬ c = sep := fun e => h (e ▸ List.mem_cons_self c rest)
    have hr : sep ∉ rest := fun hm => h (List.mem_cons_of_mem _ hm)
    simp only [List.cons_append, splitOnChar, hc, if_false]
    have hi : splitOnChar sep (rest.append (sep :: t)) = rest :: splitOnChar sep t := ih hr
    rw [hi]

theorem splitOnChar_msg (tok : Char) (a b : List Char) (htok : ¬ tok = ',')
    (ha : ',' ∉ a) (hb : ',' ∉ b) :
    splitOnChar ',' (tok :: ',' :: (a ++ ',' :: b)) = [tok] :: a :: [b] := by
  have h1 : splitOnChar ',' (',' :: (a ++ ',' :: b)) =
      [] :: splitOnChar ',' (a ++ ',' :: b) := by
    simp [splitOnChar]
  have h2 : splitOnChar ',' (a ++ ',' :: b) = a :: splitOnChar ',' b :=
    splitOnChar_append ',' a b ha
  have h3 : splitOnChar ',' b = [b] := splitOnChar_not_mem ',' b hb
  simp [splitOnChar, htok, h1, h2, h3]

theorem schemeWrite_P (s : OrbitalScheme) (id : Nat) (w : Window) (a b : List Char)
    (hw : mapGet s.windows id = some w) (ha : ',' ∉ a) (hb : ',' ∉ b) :
    (schemeWrite s id (some ('P' :: ',' :: (a ++ ',' :: b)))).1 =
      Except.ok ('P' :: ',' :: (a ++ ',' :: b)).length ∧
    mapGet (schemeWrite s id (some ('P' :: ',' :: (a ++ ',' :: b)))).2.windows id =
      some {w with x := (parseI32 a).getD w.x, y := (parseI32 b).getD w.y} := by
  have hsplit := splitOnChar_msg 'P' a b (by decide) ha hb
  unfold schemeWrite
  rw [hw]
  simp only [hsplit]
  constructor
  · rfl
  · show mapGet (mapSet s.windows id (fun _ =>
        { w with
            x := (parseI32 a).getD w.x
            y := (parseI32 b).getD w.y })) id = _
    rw [mapGet_mapSet_self _ _ _ _ hw]

theorem schemeWrite_S (s : OrbitalScheme) (id : Nat) (w : Window) (a b : List Char)
    (hw : mapGet s.windows id = some w) (ha : ',' ∉ a) (hb : ',' ∉ b) :
    (schemeWrite s id (some ('S' :: ',' :: (a ++ ',' :: b)))).1 =
      Except.ok ('S' :: ',' :: (a ++ ',' :: b)).length ∧
    mapGet (schemeWrite s id (some ('S' :: ',' :: (a ++ ',' :: b)))).2.windows id =
      some {w with width := (parseI32 a).getD w.width,
                   height := (parseI32 b).getD w.height} := by
  have hsplit := splitOnChar_msg 'S' a b (by decide) ha hb
  unfold schemeWrite
  rw [hw]
  simp only [hsplit]
  constructor
  · rfl
  · show mapGet (mapSet s.windows id (fun _ =>
        { w with
            width := (parseI32 a).getD w.width
            height := (parseI32 b).getD w.height })) id = _
    rw [mapGet_mapSet_self _ _ _ _ hw]

/-- C8: for an existing window and a `P,a,b` (move) or `S,a,b` (resize)
message whose fields contain no comma, the write succeeds and each integer
field that parses is applied while each field that fails to parse leaves the
corresponding coordinate or dimension at the window's current value
(`(parseI32 f).getD current`). -/
theorem c8_write_field_defaults (s : OrbitalScheme) (id : Nat) (w : Window)
    (a b : List Char) (hw : mapGet s.windows id = some w)
    (ha : ',' ∉ a) (hb : ',' ∉ b) :
    ((schemeWrite s id (some ('P' :: ',' :: (a ++ ',' :: b)))).1 =
        Except.ok ('P' :: ',' :: (a ++ ',' :: b)).length ∧
      mapGet (schemeWrite s id (some ('P' :: ',' :: (a ++ ',' :: b)))).2.windows id =
        some {w with x := (parseI32 a).getD w.x, y := (parseI32 b).getD w.y}) ∧
    ((schemeWrite s id (some ('S' :: ',' :: (a ++ ',' :: b)))).1 =
        Except.ok ('S' :: ',' :: (a ++ ',' :: b)).length ∧
      mapGet (schemeWrite s id (some ('S' :: ',' :: (a ++ ',' :: b)))).2.windows id =
        some {w with width := (parseI32 a).getD w.width,
                     height := (parseI32 b).getD w.height}) :=
  ⟨schemeWrite_P s id w a b hw ha hb, schemeWrite_S s id w a b hw ha hb⟩

/-- Fields for the concrete write: "200" parses, "4x" does not. -/
def c8FieldA : List Char := ['2', '0', '0']

/-- An unparseable field. -/
def c8FieldB : List Char := ['4', 'x']

theorem c8_write_field_defaults_witness :
    ((schemeWrite baseState 1 (some ('P' :: ',' :: (c8FieldA ++ ',' :: c8FieldB)))).1 =
        Except.ok ('P' :: ',' :: (c8FieldA ++ ',' :: c8FieldB)).length ∧
      mapGet (schemeWrite baseState 1
          (some ('P' :: ',' :: (c8FieldA ++ ',' :: c8FieldB)))).2.windows 1 =
        some {baseWin with x := 200, y := 10}) ∧
    ((schemeWrite baseState 1 (some ('S' :: ',' :: (c8FieldA ++ ',' :: c8FieldB)))).1 =
        Except.ok ('S' :: ',' :: (c8FieldA ++ ',' :: c8FieldB)).length ∧
      mapGet (schemeWrite baseState 1
          (some ('S' :: ',' :: (c8FieldA ++ ',' :: c8FieldB)))).2.windows 1 =
        some {baseWin with width := 200, height := 50}) :=
  c8_write_field_defaults baseState 1 baseWin c8FieldA c8FieldB
    (by decide) (by decide) (by decide)
